import Mathlib

/-!
# Kiosk: display / tab lifecycle orchestrator

A shallow embedding of `cmd/kiosk/kiosk.go` and `internal/config/config.go`.

* Go `int` / `int64` values are `Int`; where the source does arithmetic that
  can leave the 64-bit range (`r.id++`, `time.Duration(n) * time.Second`) the
  result is reduced with `wrap64`.
* `map[string]*DisplayState` is an association list; the functions embedded
  here only range over its values or look a key up.
* Everything the program obtains from outside (clock readings, the outcome of
  a websocket send or HTTP request, which branch of a `select` fired, what a
  tool printed, what the browser listed) is an explicit argument of the
  embedded function.
* A process that ends in `log.Fatal` or a panic, and a loop that is still
  running when the supplied answers are used up, are results of their own.
* The library functions the program calls on strings (`strings.TrimSpace`,
  `strings.Split`, `strings.TrimSuffix`, `strconv.Atoi`, the verb `%d`, the
  pattern `\d+$`) are modelled on lists of characters.
-/

namespace KioskApp

/-! ## Data model (`config.go` 16-39, `kiosk.go` 26-64) -/

/-- Mirrors `config.TabConfig`. -/
structure TabConfig where
  URL : String
  RefreshBeforeLoad : Bool
  RefreshAfterLoad : Bool
  RefreshInterval : Int
  DelayAfterRefresh : Int
  DwellTime : Int
deriving DecidableEq, Repr

/-- Modelled from the spec: the type of `DisplayConfig.Exec` is not declared in
`config.go`; the fields are the ones `kiosk.go` reads (`Command`, `Args`,
`WindowSearch`, `SendKeys`, `DelayBeforeSendKeys`), the spec's custom-launch
spec "command, arguments, window-search pattern, keys to send after launch with
a pre-send delay". -/
structure ExecConfig where
  Command : String
  Args : List String
  WindowSearch : String
  SendKeys : List String
  DelayBeforeSendKeys : Int
deriving DecidableEq, Repr

/-- Mirrors `config.DisplayConfig` (with the `Exec` field `kiosk.go` uses). -/
structure DisplayConfig where
  Name : String
  DebugPort : Int
  X : Int
  Y : Int
  Fullscreen : Bool
  Tabs : List TabConfig
  Exec : ExecConfig
deriving DecidableEq, Repr

/-- Mirrors `config.Config`. -/
structure Config where
  DwellTime : Int
  DebugPort : Int
  NewWindowSize : String
  Displays : List DisplayConfig
deriving DecidableEq, Repr

/-- Mirrors `TabState`: the embedded `config.TabConfig` plus the runtime
fields.  `WSConn` is never assigned anything but `nil` and is left out. -/
structure TabState where
  cfg : TabConfig
  ID : String
  LastRefresh : Int
  WSURL : String
deriving DecidableEq, Repr

/-- Mirrors `DisplayState`. -/
structure DisplayState where
  Config : DisplayConfig
  DebugPort : Int
  Tabs : List TabState
  WindowID : String
deriving DecidableEq, Repr

/-- The map `kiosk.windows`, display name to runtime state. -/
abbrev Windows := List (String × DisplayState)

/-! ## Window locator (`kiosk.go` 377-418) -/

/-- Lines 385-391: the scan of `beforeExecIDs` for `id`, leaving at the first
hit. -/
def foundBefore (id : String) : List String → Bool
  | [] => false
  | beforeID :: rest => if id = beforeID then true else foundBefore id rest

/-- Lines 383-395: the handles of `afterExecIDs` that `beforeExecIDs` lacks,
appended to `winIDs` in the order met. -/
def filterNewIDs (beforeExecIDs : List String) : List String → List String → List String
  | [], winIDs => winIDs
  | id :: rest, winIDs =>
    if foundBefore id beforeExecIDs then filterNewIDs beforeExecIDs rest winIDs
    else filterNewIDs beforeExecIDs rest (winIDs ++ [id])

/-- Lines 402-407: the set `existing` of the non-empty window handles held by
the displays. -/
def gatherExisting : Windows → List String
  | [] => []
  | w :: rest => if w.2.WindowID ≠ "" then w.2.WindowID :: gatherExisting rest else gatherExisting rest

/-- Lines 410-415: the first handle of `winIDs` that `existing` does not hold. -/
def firstUnused (existing : List String) : List String → Option String
  | [] => none
  | id :: rest => if existing.contains id then firstUnused existing rest else some id

/-- Lines 397-417: the choice among the new handles `winIDs`. -/
def pickWindowID (windows : Windows) (name : String) (winIDs : List String) :
    Except String String :=
  if h : winIDs.length = 0 then
    Except.error ("[" ++ name ++ "] No new window found after exec")
  else
    match firstUnused (gatherExisting windows) winIDs with
    | some id => Except.ok id
    | none => Except.ok (winIDs.get ⟨winIDs.length - 1, by omega⟩)

/-- Embeds `xdotoolFindLatestWindowID`; the error value is the message. -/
def xdotoolFindLatestWindowID (windows : Windows) (name : String)
    (beforeExecIDs afterExecIDs : List String) : Except String String :=
  if afterExecIDs.length = 0 then
    Except.error ("[" ++ name ++ "] No visible windows found")
  else
    pickWindowID windows name (filterNewIDs beforeExecIDs afterExecIDs [])

/-- A handle is bound to a display when it is the non-empty `WindowID` of an
entry of the map (the field is "empty until assigned"). -/
def boundToDisplay (windows : Windows) (id : String) : Bool :=
  windows.any (fun w => decide (w.2.WindowID ≠ "") && decide (w.2.WindowID = id))

/-! ## Machine arithmetic and the request-id counter (`kiosk.go` 41-52, 66-71) -/

/-- Reduction of an integer to the signed 64-bit range, the result Go gives
for `int` and `int64` arithmetic (64-bit target). -/
def wrap64 (n : Int) : Int :=
  (n + 9223372036854775808) % 18446744073709551616 - 9223372036854775808

/-- The constant `time.Second`, in nanoseconds. -/
def second : Int := 1000000000

/-- Mirrors `RequestID` (the mutex only serialises the calls). -/
structure RequestID where
  id : Int
deriving DecidableEq, Repr

/-- Embeds `RequestID.Next`: the value returned and the counter afterwards. -/
def RequestID.Next (r : RequestID) : Int × RequestID :=
  (r.id, { id := wrap64 (r.id + 1) })

/-- The values returned by `n` successive calls of `Next`, oldest first, and
the counter after them. -/
def RequestID.callN : Nat → RequestID → List Int × RequestID
  | 0, r => ([], r)
  | n + 1, r => ((r.Next).1 :: (RequestID.callN n (r.Next).2).1, (RequestID.callN n (r.Next).2).2)

/-! ## Orchestrator state (`kiosk.go` 54-71, 289-302, 756-768) -/

/-- What the orchestrator does to its collaborators: cancel the shared
context, block on the completion barrier, ask the window manager to close a
window. -/
inductive Action where
  | cancel
  | wait
  | closeWindow (name : String) (windowID : String)
deriving DecidableEq, Repr

/-- Mirrors `Kiosk`.  `wg` is the counter of the wait group, `ctxDone` tells
whether `kiosk.ctx` has been cancelled, `cancel` whether `kiosk.cancel` is
non-nil. -/
structure Kiosk where
  requestID : RequestID
  cfg : Config
  cfgFilename : String
  windows : Windows
  wg : Nat
  ctxDone : Bool
  cancel : Bool
deriving DecidableEq, Repr

/-- Embeds `NewKiosk`: counter at 1, empty map, every other field zero. -/
def NewKiosk : Kiosk :=
  { requestID := { id := 1 }
    cfg := { DwellTime := 0, DebugPort := 0, NewWindowSize := "", Displays := [] }
    cfgFilename := ""
    windows := []
    wg := 0
    ctxDone := false
    cancel := false }

/-- Embeds `Kiosk.Stop`: the state when the call returns and the actions it
took.  `wg.Wait()` returns once the counter of the wait group is zero. -/
def Kiosk.Stop (k : Kiosk) : Kiosk × List Action :=
  if k.cancel then
    ({ k with ctxDone := true, cancel := false, wg := 0 }, [Action.cancel, Action.wait])
  else
    (k, [])

/-- Embeds `Kiosk.CloseWindow`: the `xdotool windowclose` it issues, if the
display is known. -/
def Kiosk.CloseWindow (k : Kiosk) (name : String) : List Action :=
  match k.windows.lookup name with
  | none => []
  | some window => [Action.closeWindow name window.WindowID]

/-! ## Tab cycler (`kiosk.go` 784-803, 824-915) -/

/-- The three places of the per-tab step that call `refreshTabAndWait`
(lines 848, 852, 862). -/
inductive RefreshSite where
  | interval
  | beforeLoad
  | afterLoad
deriving DecidableEq, Repr

/-- What one call of `refreshTabAndWait` meets outside the program. -/
structure RefreshEnv where
  /-- The error of the websocket dial or write, if it fails. -/
  sendErr : Option String
  /-- In the `select` of lines 793-797, `ctx.Done()` is the branch taken. -/
  delayCancelled : Bool
  /-- The value of `time.Now().Unix()` at line 800. -/
  now : Int

/-- What one per-tab step meets outside the program. -/
structure IterEnv where
  /-- The duration `time.Since(time.Unix(t, 0))` evaluates to at line 847, in
  nanoseconds, as a function of `t`. -/
  since : Int → Int
  interval : RefreshEnv
  beforeLoad : RefreshEnv
  /-- The error of the HTTP request of `activateChromeTab`, if it fails. -/
  activateErr : Option String
  afterLoad : RefreshEnv
  /-- In the `select` of lines 865-869, `ctx.Done()` is the branch taken. -/
  dwellCancelled : Bool

/-- What a cycler does that can be observed: a call of `refreshTabAndWait`
and the boolean it returned, an activate request, a dwell wait.  `tabIndex` is
the position of the tab in `display.Tabs`. -/
inductive Event where
  | refresh (site : RefreshSite) (tabIndex : Nat) (ok : Bool)
  | activate (tabIndex : Nat) (port : Int) (tabID : String) (err : Option String)
  | dwell (tabIndex : Nat) (duration : Int)
deriving DecidableEq, Repr

/-- Embeds `chromeWebsocketSend`: the error it returns. -/
def chromeWebsocketSend (tab : TabState) (transportErr : Option String) : Option String :=
  if tab.WSURL = "" then some "no websocket url" else transportErr

/-- Embeds `navigateChromeTab`: the error it returns and the counter after
the request id was drawn. -/
def navigateChromeTab (r : RequestID) (tab : TabState) (transportErr : Option String) :
    Option String × RequestID :=
  (chromeWebsocketSend tab transportErr, (r.Next).2)

/-- The results of `refreshTabAndWait` and the state it leaves. -/
structure RefreshResult where
  ok : Bool
  err : Option String
  tab : TabState
  requestID : RequestID

/-- Embeds `refreshTabAndWait`. -/
def refreshTabAndWait (r : RequestID) (tab : TabState) (env : RefreshEnv) : RefreshResult :=
  match (navigateChromeTab r tab env.sendErr).1 with
  | some e => { ok := false, err := some e, tab := tab, requestID := (navigateChromeTab r tab env.sendErr).2 }
  | none =>
    if tab.cfg.DelayAfterRefresh > 0 ∧ env.delayCancelled = true then
      { ok := false, err := some "context canceled", tab := tab,
        requestID := (navigateChromeTab r tab env.sendErr).2 }
    else
      { ok := true, err := none, tab := { tab with LastRefresh := env.now },
        requestID := (navigateChromeTab r tab env.sendErr).2 }

/-- The local state of one per-tab step (lines 843-869). -/
structure IterState where
  tab : TabState
  requestID : RequestID
  refreshed : Bool
  events : List Event
  stopped : Bool

/-- The condition of line 847. -/
def intervalDue (tab : TabState) (env : IterEnv) : Bool :=
  decide (tab.cfg.RefreshInterval > 0) &&
    decide (env.since tab.LastRefresh > wrap64 (tab.cfg.RefreshInterval * second))

/-- Lines 848 and 852: a call of `refreshTabAndWait` whose boolean is stored
in `refreshed`. -/
def refreshInto (site : RefreshSite) (i : Nat) (env : RefreshEnv) (s : IterState) : IterState :=
  { s with
    tab := (refreshTabAndWait s.requestID s.tab env).tab
    requestID := (refreshTabAndWait s.requestID s.tab env).requestID
    refreshed := (refreshTabAndWait s.requestID s.tab env).ok
    events := s.events ++ [Event.refresh site i (refreshTabAndWait s.requestID s.tab env).ok] }

/-- Lines 847-849. -/
def intervalStep (i : Nat) (env : IterEnv) (s : IterState) : IterState :=
  if intervalDue s.tab env then refreshInto RefreshSite.interval i env.interval s else s

/-- Lines 851-853. -/
def beforeLoadStep (i : Nat) (env : IterEnv) (s : IterState) : IterState :=
  if !s.refreshed && s.tab.cfg.RefreshBeforeLoad then
    refreshInto RefreshSite.beforeLoad i env.beforeLoad s
  else s

/-- Lines 855-859: the error of `activateChromeTab` is logged only. -/
def activateStep (port : Int) (i : Nat) (env : IterEnv) (s : IterState) : IterState :=
  { s with events := s.events ++ [Event.activate i port s.tab.ID env.activateErr] }

/-- Lines 861-863: the results of this call are dropped. -/
def afterLoadStep (i : Nat) (env : IterEnv) (s : IterState) : IterState :=
  if !s.refreshed && s.tab.cfg.RefreshAfterLoad then
    { s with
      tab := (refreshTabAndWait s.requestID s.tab env.afterLoad).tab
      requestID := (refreshTabAndWait s.requestID s.tab env.afterLoad).requestID
      events := s.events ++
        [Event.refresh RefreshSite.afterLoad i (refreshTabAndWait s.requestID s.tab env.afterLoad).ok] }
  else s

/-- Lines 843 and 865-869: the dwell wait; the goroutine returns when
`ctx.Done()` is the branch taken. -/
def dwellStep (i : Nat) (env : IterEnv) (s : IterState) : IterState :=
  { s with
    events := s.events ++ [Event.dwell i (wrap64 (s.tab.cfg.DwellTime * second))]
    stopped := env.dwellCancelled }

/-- The body of the inner loop of `tabCycler` for the tab at index `i`. -/
def tabIteration (port : Int) (i : Nat) (tab : TabState) (r : RequestID) (env : IterEnv) :
    IterState :=
  dwellStep i env (afterLoadStep i env (activateStep port i env (beforeLoadStep i env
    (intervalStep i env
      { tab := tab, requestID := r, refreshed := false, events := [], stopped := false }))))

/-- The state of the goroutine of `tabCycler`: the display it captured, the
shared counter, the index the inner loop visits next, whether the goroutine
has returned, and what it has done so far. -/
structure CyclerState where
  display : DisplayState
  requestID : RequestID
  next : Nat
  stopped : Bool
  trace : List Event

/-- Embeds the head of `tabCycler` (lines 825-834): for a name the map holds
the wait group is incremented and the goroutine starts on that display. -/
def tabCycler (k : Kiosk) (name : String) : Kiosk × Option CyclerState :=
  match k.windows.lookup name with
  | none => (k, none)
  | some display =>
    ({ k with wg := k.wg + 1 },
      some { display := display, requestID := k.requestID, next := 0, stopped := false, trace := [] })

/-- One per-tab step of the running goroutine.  With no tab at `next` (an
empty `display.Tabs`) the outer loop spins without doing anything. -/
def cyclerStep (s : CyclerState) (env : IterEnv) : CyclerState :=
  if s.stopped then s
  else
    match s.display.Tabs[s.next]? with
    | none => s
    | some tab =>
      { display :=
          { s.display with
            Tabs := s.display.Tabs.set s.next
              (tabIteration s.display.DebugPort s.next tab s.requestID env).tab }
        requestID := (tabIteration s.display.DebugPort s.next tab s.requestID env).requestID
        next := if s.next + 1 < s.display.Tabs.length then s.next + 1 else 0
        stopped := (tabIteration s.display.DebugPort s.next tab s.requestID env).stopped
        trace := s.trace ++ (tabIteration s.display.DebugPort s.next tab s.requestID env).events }

/-- The goroutine run against a sequence of environments, one per step. -/
def runCycler (s : CyclerState) (envs : List IterEnv) : CyclerState :=
  envs.foldl cyclerStep s

/-- The activate requests of a trace, in order: tab index, port, target id. -/
def activations : List Event → List (Nat × Int × String)
  | [] => []
  | Event.activate i port id _ :: rest => (i, port, id) :: activations rest
  | _ :: rest => activations rest

/-- The calls of `refreshTabAndWait` a trace holds for one call site. -/
def refreshCount (site : RefreshSite) : List Event → Nat
  | [] => 0
  | Event.refresh s _ _ :: rest => (if s = site then 1 else 0) + refreshCount site rest
  | _ :: rest => refreshCount site rest

/-! ## Sample inputs -/

/-- A tab with the given flags, refresh interval and websocket address; dwell
of one second, no delay after a refresh, last navigation at second 100. -/
def sampleTab (id : String) (before after : Bool) (interval : Int) (ws : String) : TabState :=
  { cfg := { URL := "http://example/" ++ id, RefreshBeforeLoad := before,
             RefreshAfterLoad := after, RefreshInterval := interval,
             DelayAfterRefresh := 0, DwellTime := 1 }
    ID := id, LastRefresh := 100, WSURL := ws }

/-- A display with two tabs, `dwell_time = 1`, no refresh flags. -/
def sampleDisplay : DisplayState :=
  { Config := { Name := "d", DebugPort := 9222, X := 0, Y := 0, Fullscreen := false, Tabs := [],
                Exec := { Command := "", Args := [], WindowSearch := "", SendKeys := [],
                          DelayBeforeSendKeys := 0 } }
    DebugPort := 9222
    Tabs := [sampleTab "A" false false 0 "ws://a", sampleTab "B" false false 0 "ws://b"]
    WindowID := "7" }

/-- A running orchestrator whose map holds `sampleDisplay` under `d`. -/
def sampleKiosk : Kiosk :=
  { NewKiosk with windows := [("d", sampleDisplay)], cancel := true }

/-- An environment in which `elapsed` nanoseconds have passed since the last
navigation, every request succeeds and nothing is cancelled. -/
def quietEnv (elapsed : Int) : IterEnv :=
  { since := fun _ => elapsed
    interval := { sendErr := none, delayCancelled := false, now := 200 }
    beforeLoad := { sendErr := none, delayCancelled := false, now := 200 }
    activateErr := none
    afterLoad := { sendErr := none, delayCancelled := false, now := 200 }
    dwellCancelled := false }

/-- The environment of `quietEnv` in which the activate request fails. -/
def activateFailsEnv : IterEnv :=
  { quietEnv 0 with activateErr := some "connection refused" }

/-- The environment of `quietEnv` in which every websocket send fails. -/
def sendFailsEnv (elapsed : Int) : IterEnv :=
  { quietEnv elapsed with
    interval := { sendErr := some "connection refused", delayCancelled := false, now := 200 }
    beforeLoad := { sendErr := some "connection refused", delayCancelled := false, now := 200 }
    afterLoad := { sendErr := some "connection refused", delayCancelled := false, now := 200 } }

/-! ## Display launcher (`kiosk.go` 518-679) -/

/-- One target descriptor of the browser's `/json` list, as `waitForTabID`
reads it: a field is `some s` when the key is present and holds the string
`s`, `none` otherwise. -/
structure ChromeTarget where
  id : Option String
  webSocketDebuggerUrl : Option String
deriving DecidableEq, Repr

/-- Lines 656-661: the scan of `window.Tabs` that sets `exists`. -/
def idExists (id : String) : List TabState → Bool
  | [] => false
  | t :: rest => if t.ID ≠ "" ∧ t.ID = id then true else idExists id rest

/-- Lines 644-666: the target a pass over `chromeTabs` stops at, with its id
and websocket address. -/
def pickTarget (tabs : List TabState) : List ChromeTarget → Option (String × String)
  | [] => none
  | chromeTab :: rest =>
    match chromeTab.id with
    | none => pickTarget tabs rest
    | some id =>
      match chromeTab.webSocketDebuggerUrl with
      | none => pickTarget tabs rest
      | some wsURL => if idExists id tabs then pickTarget tabs rest else some (id, wsURL)

/-- Lines 667-668: the two writes to `window.Tabs[tabIndex]`; `none` is the
index-out-of-range panic. -/
def bindTab (window : DisplayState) (tabIndex : Nat) (id wsURL : String) : Option DisplayState :=
  match window.Tabs[tabIndex]? with
  | none => none
  | some t =>
    some { window with Tabs := window.Tabs.set tabIndex { t with ID := id, WSURL := wsURL } }

/-- What one turn of the loop of `waitForTabID` meets outside the program. -/
structure TabPoll where
  /-- The result of `fetchTabs`. -/
  fetched : Except String (List ChromeTarget)
  /-- In the `select` that follows a turn without binding (lines 635-639 and
  673-677), `ctx.Done()` is the branch taken. -/
  cancelled : Bool

/-- How a call of `waitForTabID` ends. -/
inductive WaitResult where
  /-- Returned `nil`; the display as written and the polls not consumed. -/
  | bound (window : DisplayState) (rest : List TabPoll)
  /-- Returned `ctx.Err()`. -/
  | cancelled
  /-- Index out of range at line 667. -/
  | panicked
  /-- The polls supplied are used up and the loop is still running. -/
  | polling

/-- Embeds `waitForTabID`, one element of the list per turn of its loop. -/
def waitForTabID (window : DisplayState) (tabIndex : Nat) : List TabPoll → WaitResult
  | [] => WaitResult.polling
  | poll :: rest =>
    match poll.fetched with
    | Except.error _ =>
      if poll.cancelled then WaitResult.cancelled else waitForTabID window tabIndex rest
    | Except.ok chromeTabs =>
      if chromeTabs.length = 0 then
        if poll.cancelled then WaitResult.cancelled else waitForTabID window tabIndex rest
      else
        match pickTarget window.Tabs chromeTabs with
        | some (id, wsURL) =>
          match bindTab window tabIndex id wsURL with
          | some w => WaitResult.bound w rest
          | none => WaitResult.panicked
        | none =>
          if poll.cancelled then WaitResult.cancelled else waitForTabID window tabIndex rest

/-- A target qualifies for binding when it has a string id and a string
websocket address and its id is no non-empty `ID` held by a tab. -/
def qualifies (tabs : List TabState) (c : ChromeTarget) : Bool :=
  match c.id, c.webSocketDebuggerUrl with
  | some id, some _ => !idExists id tabs
  | _, _ => false

/-- What `launchChrome` asks of its collaborators, with the port it passes. -/
inductive LaunchEvent where
  | portProbe (port : Int)
  | startBrowser (port : Int) (url : String)
  | waitForDebugger (port : Int)
  | newTab (url : String)
  | waitForTabID (port : Int) (tabIndex : Nat)
deriving DecidableEq, Repr

/-- How `launchChrome` ends. -/
inductive LaunchResult where
  /-- The map has no entry for the name: nothing is done. -/
  | skipped
  /-- A `log.Fatalf` ended the process. -/
  | fatal (msg : String) (events : List LaunchEvent)
  /-- An index-out-of-range panic ended the process. -/
  | panicked (events : List LaunchEvent)
  /-- The polls supplied are used up and a loop is still running. -/
  | running (events : List LaunchEvent)
  /-- Returned, with the display as written. -/
  | done (window : DisplayState) (events : List LaunchEvent)
deriving Repr

/-- Lines 603-625: `waitForTabID` for the indices of `todo` in turn; before
each index other than 0 the browser is asked for a new tab. -/
def bindTabs (port : Int) : List Nat → DisplayState → List TabPoll → List LaunchEvent →
    LaunchResult
  | [], window, _, events => LaunchResult.done window events
  | i :: todo, window, polls, events =>
    match (if i = 0 then some events else
        (window.Tabs[i]?).map (fun tab => events ++ [LaunchEvent.newTab tab.cfg.URL])) with
    | none => LaunchResult.panicked events
    | some ev =>
      match waitForTabID window i polls with
      | WaitResult.bound w rest =>
        bindTabs port todo w rest (ev ++ [LaunchEvent.waitForTabID port i])
      | WaitResult.cancelled =>
        LaunchResult.fatal "Failed to wait for tab ID" (ev ++ [LaunchEvent.waitForTabID port i])
      | WaitResult.panicked => LaunchResult.panicked (ev ++ [LaunchEvent.waitForTabID port i])
      | WaitResult.polling => LaunchResult.running (ev ++ [LaunchEvent.waitForTabID port i])

/-- Lines 527-530: the port `launchChrome` works with. -/
def resolvePort (window : DisplayState) (cfg : Config) : Int :=
  if window.DebugPort = 0 then cfg.DebugPort else window.DebugPort

/-- Lines 570-600: the loop that looks for the new window, one element of the
list per call of `xdotoolSearchVisible`; `none` when the list is used up.
(`firstRun` is never cleared, so the loop has no wait and no exit on
cancellation.) -/
def findWindowLoop (windows : Windows) (name : String) (originalWinIDs : List String) :
    List (List String) → Option String
  | [] => none
  | winIDs :: rest =>
    if winIDs.length = 0 then findWindowLoop windows name originalWinIDs rest
    else
      match xdotoolFindLatestWindowID windows name originalWinIDs winIDs with
      | Except.ok winID => some winID
      | Except.error _ => findWindowLoop windows name originalWinIDs rest

/-- What `launchChrome` meets outside the program. -/
structure LaunchEnv where
  /-- The answer of `portAvailable`. -/
  portAvailable : Bool
  /-- The windows `xdotoolSearchVisible("chromium")` lists before the start. -/
  originalWinIDs : List String
  /-- The error `waitForDebugger` returns, if any. -/
  debuggerErr : Option String
  /-- The windows listed by the successive searches of lines 581-600. -/
  windowPolls : List (List String)
  tabPolls : List TabPoll

/-- Embeds `launchChrome` for the display stored under `name`. -/
def launchChrome (k : Kiosk) (name : String) (env : LaunchEnv) : LaunchResult :=
  match k.windows.lookup name with
  | none => LaunchResult.skipped
  | some window =>
    if env.portAvailable = false then
      LaunchResult.fatal "Port in use" [LaunchEvent.portProbe (resolvePort window k.cfg)]
    else
      match window.Tabs[0]? with
      | none => LaunchResult.panicked [LaunchEvent.portProbe (resolvePort window k.cfg)]
      | some tab0 =>
        match env.debuggerErr with
        | some _ =>
          LaunchResult.fatal "Failed to wait for debugger"
            [LaunchEvent.portProbe (resolvePort window k.cfg),
              LaunchEvent.startBrowser (resolvePort window k.cfg) tab0.cfg.URL,
              LaunchEvent.waitForDebugger (resolvePort window k.cfg)]
        | none =>
          match findWindowLoop k.windows name env.originalWinIDs env.windowPolls with
          | none =>
            LaunchResult.running
              [LaunchEvent.portProbe (resolvePort window k.cfg),
                LaunchEvent.startBrowser (resolvePort window k.cfg) tab0.cfg.URL,
                LaunchEvent.waitForDebugger (resolvePort window k.cfg)]
          | some winID =>
            bindTabs (resolvePort window k.cfg)
              (0 :: List.range' 1 (window.Tabs.length - 1))
              { window with WindowID := winID } env.tabPolls
              [LaunchEvent.portProbe (resolvePort window k.cfg),
                LaunchEvent.startBrowser (resolvePort window k.cfg) tab0.cfg.URL,
                LaunchEvent.waitForDebugger (resolvePort window k.cfg)]

/-- The ports carried by the events of a launch. -/
def launchPorts : List LaunchEvent → List Int
  | [] => []
  | LaunchEvent.portProbe p :: rest => p :: launchPorts rest
  | LaunchEvent.startBrowser p _ :: rest => p :: launchPorts rest
  | LaunchEvent.waitForDebugger p :: rest => p :: launchPorts rest
  | LaunchEvent.waitForTabID p _ :: rest => p :: launchPorts rest
  | LaunchEvent.newTab _ :: rest => launchPorts rest

/-- A tab as `loadConfig` leaves it: no target id, no websocket address. -/
def unboundTab (url : String) : TabState :=
  { cfg := { URL := url, RefreshBeforeLoad := false, RefreshAfterLoad := false,
             RefreshInterval := 0, DelayAfterRefresh := 0, DwellTime := 1 }
    ID := "", LastRefresh := 100, WSURL := "" }

/-- A display with two tabs, the first bound to target `T1`, the second not
bound yet; its own debug port is left at zero. -/
def halfBoundDisplay : DisplayState :=
  { Config := { Name := "d", DebugPort := 0, X := 0, Y := 0, Fullscreen := false,
                Tabs := [(unboundTab "http://a").cfg, (unboundTab "http://b").cfg],
                Exec := { Command := "", Args := [], WindowSearch := "", SendKeys := [],
                          DelayBeforeSendKeys := 0 } }
    DebugPort := 0
    Tabs := [{ unboundTab "http://a" with ID := "T1", WSURL := "ws://1" }, unboundTab "http://b"]
    WindowID := "7" }

/-- The display of `halfBoundDisplay` before any tab is bound. -/
def unboundDisplay : DisplayState :=
  { halfBoundDisplay with Tabs := [unboundTab "http://a", unboundTab "http://b"], WindowID := "" }

/-- A target list: one entry without a string id, then targets `T1`, `T2`. -/
def sampleTargets : List ChromeTarget :=
  [⟨none, some "ws://x"⟩, ⟨some "T1", some "ws://1"⟩, ⟨some "T2", some "ws://2"⟩]

/-- The display a launch returned with, if it returned. -/
def LaunchResult.window? : LaunchResult → Option DisplayState
  | LaunchResult.done w _ => some w
  | _ => none

/-- The events of a launch. -/
def LaunchResult.events : LaunchResult → List LaunchEvent
  | LaunchResult.skipped => []
  | LaunchResult.fatal _ ev => ev
  | LaunchResult.panicked ev => ev
  | LaunchResult.running ev => ev
  | LaunchResult.done _ ev => ev

/-- The map after a write through the pointer stored under `name`. -/
def setWindow : Windows → String → DisplayState → Windows
  | [], _, _ => []
  | (key, old) :: rest, name, w =>
    if key = name then (key, w) :: rest else (key, old) :: setWindow rest name w

/-- The orchestrator after `launchChrome` returned for `name`. -/
def Kiosk.afterLaunch (k : Kiosk) (name : String) (r : LaunchResult) : Kiosk :=
  match r.window? with
  | some w => { k with windows := setWindow k.windows name w }
  | none => k

/-- An orchestrator with the config-wide debug port 9222 whose map holds
`unboundDisplay` (own debug port zero) under `d`. -/
def launchKiosk : Kiosk :=
  { NewKiosk with
    cfg := { DwellTime := 1, DebugPort := 9222, NewWindowSize := "800,600",
             Displays := [unboundDisplay.Config] }
    windows := [("d", unboundDisplay)] }

/-- A launch in which the port is free, the debugger answers, window 2 appears
next to window 1, and the browser answers the polls for targets with `polls`. -/
def launchEnv (polls : List TabPoll) : LaunchEnv :=
  { portAvailable := true, originalWinIDs := ["1"], debuggerErr := none,
    windowPolls := [["1", "2"]], tabPolls := polls }

/-! ## Configuration load and the run sequence (`kiosk.go` 204-287, 304-341) -/

/-- Lines 329-335: the runtime state of a tab just loaded. -/
def newTabState (tab : TabConfig) (now : Int) : TabState :=
  { cfg := tab, ID := "", LastRefresh := now, WSURL := "" }

/-- Lines 325-336: the tab states of a display, in the order of its config;
`clock j` is `time.Now().Unix()` as read for the tab at index `j`. -/
def newTabStates (clock : Nat → Int) : List TabConfig → Nat → List TabState
  | [], _ => []
  | tab :: rest, j => newTabState tab (clock j) :: newTabStates clock rest (j + 1)

/-- Lines 322-336: the runtime state of a display just loaded. -/
def newDisplayState (clock : Nat → Int) (display : DisplayConfig) : DisplayState :=
  { Config := display
    DebugPort := display.DebugPort
    Tabs := newTabStates clock display.Tabs 0
    WindowID := "" }

/-- Lines 320-340: the loop over `cfg.Displays` that fills the new map; `i` is
the index of the display at the head of the list, `clock i j` the time read
for tab `j` of display `i`. -/
def buildWindows (clock : Nat → Nat → Int) : List DisplayConfig → Nat → Windows → Windows
  | [], _, windows => windows
  | display :: rest, i, windows =>
    match windows.lookup display.Name with
    | some _ => buildWindows clock rest (i + 1) windows
    | none =>
      buildWindows clock rest (i + 1)
        (windows ++ [(display.Name, newDisplayState (clock i) display)])

/-- Embeds `Kiosk.loadConfig`.  `configFile` is the value of `CONFIG_FILE`,
`loaded` the outcome of `config.Load` (the configuration it left in
`kiosk.cfg`, or its error, on which `log.Fatal` ends the process). -/
def Kiosk.loadConfig (k : Kiosk) (configFile : String) (loaded : Except String Config)
    (clock : Nat → Nat → Int) : Except String Kiosk :=
  match loaded with
  | Except.error e => Except.error e
  | Except.ok cfg =>
    Except.ok
      { k with
        cfgFilename := if configFile = "" then "./kiosk.yml" else configFile
        cfg := cfg
        windows := buildWindows clock cfg.Displays 0 [] }

/-- The calls `Run` makes on the orchestrator and its collaborators. -/
inductive RunCall where
  | launchCustom (name : String)
  | launchChrome (name : String)
  | moveWindow (name : String)
  | sendFullscreen (name : String)
  | sendKey (name : String) (key : String) (delay : Int)
  | execCycle (name : String)
  | tabCycler (name : String)
  | wait
  | cancel
  | closeWindow (name : String)
deriving DecidableEq, Repr

/-- Lines 213-230: the body of the first loop for one display: the call it
makes, paired with whether `ctx.Err()` is consulted after it. -/
def launchStep (display : DisplayConfig) : List (RunCall × Bool) :=
  if display.Exec.Command ≠ "" then [(RunCall.launchCustom display.Name, true)]
  else if display.Tabs.length = 0 then []
  else [(RunCall.launchChrome display.Name, true)]

/-- Lines 232-237: the body of the second loop. -/
def moveStep (display : DisplayConfig) : List (RunCall × Bool) :=
  [(RunCall.moveWindow display.Name, true)]

/-- Lines 239-258: the body of the third loop. -/
def keysStep (display : DisplayConfig) : List (RunCall × Bool) :=
  (if display.Fullscreen then [(RunCall.sendFullscreen display.Name, true)] else []) ++
    (display.Exec.SendKeys.filter (fun key => decide (key ≠ ""))).map (fun key =>
      (RunCall.sendKey display.Name key (wrap64 (display.Exec.DelayBeforeSendKeys * second)),
        true))

/-- Lines 260-274: the body of the fourth loop. -/
def cycleStep (display : DisplayConfig) : List (RunCall × Bool) :=
  if display.Exec.Command ≠ "" then [(RunCall.execCycle display.Name, false)]
  else if display.Tabs.length = 0 then []
  else [(RunCall.tabCycler display.Name, true)]

/-- Lines 213-274: the calls of the four loops in order, if none is cut
short. -/
def runPlan (cfg : Config) : List (RunCall × Bool) :=
  cfg.Displays.flatMap launchStep ++ cfg.Displays.flatMap moveStep ++
    cfg.Displays.flatMap keysStep ++ cfg.Displays.flatMap cycleStep

/-- The calls of a plan that are made: after a call followed by a check,
`Run` returns when `ctxErr n` holds, `n` being the number of calls made so
far (`kiosk.ctx.Err() != nil`).  The boolean tells whether `Run` returned
that way. -/
def runCalls (ctxErr : Nat → Bool) : List (RunCall × Bool) → Nat → List RunCall × Bool
  | [], _ => ([], false)
  | (call, checked) :: rest, n =>
    if checked && ctxErr (n + 1) then ([call], true)
    else (call :: (runCalls ctxErr rest (n + 1)).1, (runCalls ctxErr rest (n + 1)).2)

/-- Embeds `Kiosk.Run`: the calls it makes, in order.  After the four loops
it waits for the tasks and cancels the context unless `Stop` has cleared
`kiosk.cancel` in the meantime (`cancelCleared`); the deferred function closes
the window of every display on every way out. -/
def Kiosk.Run (k : Kiosk) (ctxErr : Nat → Bool) (cancelCleared : Bool) : List RunCall :=
  (runCalls ctxErr (runPlan k.cfg) 0).1 ++
    (if (runCalls ctxErr (runPlan k.cfg) 0).2 then []
      else if cancelCleared then [RunCall.wait] else [RunCall.wait, RunCall.cancel]) ++
    k.cfg.Displays.map (fun display => RunCall.closeWindow display.Name)

/-- A configuration with two displays of the same name, the first without
tabs, the second with one tab. -/
def sameNameConfig : Config :=
  { DwellTime := 1, DebugPort := 9222, NewWindowSize := "800,600"
    Displays :=
      [{ Name := "x", DebugPort := 9223, X := 0, Y := 0, Fullscreen := false, Tabs := [],
         Exec := { Command := "", Args := [], WindowSearch := "", SendKeys := [],
                   DelayBeforeSendKeys := 0 } },
       { Name := "x", DebugPort := 9224, X := 0, Y := 0, Fullscreen := false,
         Tabs := [(unboundTab "http://a").cfg],
         Exec := { Command := "", Args := [], WindowSearch := "", SendKeys := [],
                   DelayBeforeSendKeys := 0 } }] }

/-- A configuration with a browser display of two tabs, a custom-command
display that also lists a tab, and a display with neither. -/
def mixedConfig : Config :=
  { DwellTime := 1, DebugPort := 9222, NewWindowSize := "800,600"
    Displays :=
      [{ Name := "web", DebugPort := 9223, X := 0, Y := 0, Fullscreen := true,
         Tabs := [(unboundTab "http://a").cfg, (unboundTab "http://b").cfg],
         Exec := { Command := "", Args := [], WindowSearch := "", SendKeys := [],
                   DelayBeforeSendKeys := 0 } },
       { Name := "cam", DebugPort := 0, X := 800, Y := 0, Fullscreen := false,
         Tabs := [(unboundTab "http://c").cfg],
         Exec := { Command := "vlc", Args := ["rtsp://cam"], WindowSearch := "VLC",
                   SendKeys := ["f", ""], DelayBeforeSendKeys := 2 } },
       { Name := "idle", DebugPort := 0, X := 0, Y := 0, Fullscreen := false, Tabs := [],
         Exec := { Command := "", Args := [], WindowSearch := "", SendKeys := [],
                   DelayBeforeSendKeys := 0 } }] }

/-- Whether a launch ended in an index-out-of-range panic. -/
def LaunchResult.isPanicked : LaunchResult → Bool
  | LaunchResult.panicked _ => true
  | _ => false

/-- The environment of `quietEnv` in which the dwell wait is cancelled. -/
def cancelEnv : IterEnv :=
  { quietEnv 0 with dwellCancelled := true }

/-! ## Library functions on strings (`strings`, `strconv`, `fmt`, `regexp`) -/

/-- The test `unicode.IsSpace`, which `strings.TrimSpace` trims by. -/
def isSpace (c : Char) : Bool :=
  c.toNat = 9 || c.toNat = 10 || c.toNat = 11 || c.toNat = 12 || c.toNat = 13 ||
  c.toNat = 32 || c.toNat = 133 || c.toNat = 160 || c.toNat = 5760 ||
  (decide (8192 ≤ c.toNat) && decide (c.toNat ≤ 8202)) || c.toNat = 8232 || c.toNat = 8233 ||
  c.toNat = 8239 || c.toNat = 8287 || c.toNat = 12288

/-- The function `strings.TrimSpace`. -/
def trimSpace (s : List Char) : List Char :=
  ((s.dropWhile isSpace).reverse.dropWhile isSpace).reverse

/-- The function `strings.Split(s, "\n")`: the pieces between line feeds; one
empty piece for the empty string. -/
def splitLines : List Char → List (List Char)
  | [] => [[]]
  | c :: rest =>
    if c.toNat = 10 then [] :: splitLines rest
    else
      match splitLines rest with
      | [] => [[c]]
      | line :: lines => (c :: line) :: lines

/-- The test `'0' <= c && c <= '9'`. -/
def isDigit (c : Char) : Bool :=
  decide (48 ≤ c.toNat) && decide (c.toNat ≤ 57)

/-- The value of a run of decimal digits. -/
def digitsValue (s : List Char) : Nat :=
  s.foldl (fun n c => 10 * n + (c.toNat - 48)) 0

/-- The function `strconv.Atoi` (64-bit `int`): an optional sign, then at least
one character, all of them decimal digits, with a value in the range of
`int`; `none` stands for an error. -/
def atoi (s : List Char) : Option Int :=
  match s with
  | [] => none
  | c :: rest =>
    if c.toNat = 45 then
      if rest = [] ∨ ¬ rest.all isDigit = true then none
      else if digitsValue rest ≤ 9223372036854775808 then some (-(digitsValue rest : Int))
      else none
    else if c.toNat = 43 then
      if rest = [] ∨ ¬ rest.all isDigit = true then none
      else if digitsValue rest ≤ 9223372036854775807 then some (digitsValue rest : Int)
      else none
    else
      if ¬ (c :: rest).all isDigit = true then none
      else if digitsValue (c :: rest) ≤ 9223372036854775807 then
        some (digitsValue (c :: rest) : Int)
      else none

/-- The decimal digit of a number below ten. -/
def digitChar (n : Nat) : Char := Char.ofNat (48 + n)

/-- The decimal digits of `n`, most significant first; `fuel` bounds the
number of digits. -/
def formatNatFuel : Nat → Nat → List Char
  | 0, _ => []
  | fuel + 1, n =>
    if n < 10 then [digitChar n] else formatNatFuel fuel (n / 10) ++ [digitChar (n % 10)]

/-- The verb `%d` of `fmt.Sprintf` on a natural number. -/
def formatNat (n : Nat) : List Char := formatNatFuel (n + 1) n

/-- The verb `%d` of `fmt.Sprintf`. -/
def formatInt (n : Int) : List Char :=
  if n < 0 then Char.ofNat 45 :: formatNat n.natAbs else formatNat n.toNat

/-- The match of the pattern `\d+$` in `s`, when there is one: the longest run
of decimal digits that ends the string (`[]` for no match). -/
def trailingDigits (s : List Char) : List Char :=
  (s.reverse.takeWhile isDigit).reverse

/-- The function `strings.TrimSuffix`. -/
def trimSuffix (s suffix : List Char) : List Char :=
  if s.drop (s.length - suffix.length) = suffix then s.take (s.length - suffix.length) else s

/-! ## Window search (`kiosk.go` 343-375) -/

/-- Lines 360-372: the loop that keeps the lines which are not empty and
which `strconv.Atoi` accepts. -/
def keepNumeric : List String → List String
  | [] => []
  | id :: rest =>
    if id = "" then keepNumeric rest
    else
      match atoi id.data with
      | none => keepNumeric rest
      | some _ => id :: keepNumeric rest

/-- Embeds `xdotoolSearchVisible`: the list and the error it returns.  `run`
gives the outcome of `xdotool search --onlyvisible --name` for a pattern: the
error of the command, or what it wrote to standard output. -/
def xdotoolSearchVisible (searchName : String) (run : String → Except String String) :
    List String × Option String :=
  match run (if searchName = "" then ".*" else searchName) with
  | Except.error _ => ([], none)
  | Except.ok out =>
    if ((splitLines (trimSpace out.data)).map String.mk).length = 0 ∨
        ((splitLines (trimSpace out.data)).map String.mk).head? = some "" then ([], none)
    else (keepNumeric ((splitLines (trimSpace out.data)).map String.mk), none)

/-! ## Configuration helpers (`config.go` 83-122) -/

/-- Lines 84-89: the loop of `IndexOfDisplay` from index `i` on. -/
def indexOfDisplayFrom (name : String) : List DisplayConfig → Int → Int
  | [], _ => -1
  | d :: rest, i => if d.Name = name then i else indexOfDisplayFrom name rest (i + 1)

/-- Embeds `Config.IndexOfDisplay`. -/
def Config.IndexOfDisplay (c : Config) (name : String) : Int :=
  indexOfDisplayFrom name c.Displays 0

/-- Lines 94-98: the loop of `NextDebugPort`. -/
def highestPortFrom : List DisplayConfig → Int → Int
  | [], highestPort => highestPort
  | d :: rest, highestPort =>
    if d.DebugPort > highestPort then highestPortFrom rest d.DebugPort
    else highestPortFrom rest highestPort

/-- Embeds `Config.NextDebugPort`. -/
def Config.NextDebugPort (c : Config) : Int :=
  wrap64 (highestPortFrom c.Displays 9000 + 1)

/-- Embeds `Config.NextDisplayName`. -/
def Config.NextDisplayName (c : Config) : String :=
  match c.Displays.getLast? with
  | none => "Display0"
  | some d =>
    if trailingDigits d.Name.data = [] then d.Name ++ "-1"
    else
      match atoi (trailingDigits d.Name.data) with
      | none => d.Name ++ "-1"
      | some lastNum =>
        String.mk (trimSuffix d.Name.data (trailingDigits d.Name.data) ++
          formatInt (wrap64 (lastNum + 1)))

/-- A configuration whose displays are named as given, in order. -/
def namedConfig (names : List String) : Config :=
  { DwellTime := 1, DebugPort := 9222, NewWindowSize := "800,600"
    Displays := names.map (fun name =>
      { Name := name, DebugPort := 9222, X := 0, Y := 0, Fullscreen := false, Tabs := [],
        Exec := { Command := "", Args := [], WindowSearch := "", SendKeys := [],
                  DelayBeforeSendKeys := 0 } }) }

/-- A configuration with one display on the given debug port. -/
def portConfig (port : Int) : Config :=
  { DwellTime := 1, DebugPort := 9222, NewWindowSize := "800,600"
    Displays :=
      [{ Name := "d", DebugPort := port, X := 0, Y := 0, Fullscreen := false, Tabs := [],
         Exec := { Command := "", Args := [], WindowSearch := "", SendKeys := [],
                   DelayBeforeSendKeys := 0 } }] }

/-- A configuration with two displays of the same name: the first has a
custom command and one tab, the second one tab and no command. -/
def sameNameExecConfig : Config :=
  { DwellTime := 1, DebugPort := 9222, NewWindowSize := "800,600"
    Displays :=
      [{ Name := "x", DebugPort := 9223, X := 0, Y := 0, Fullscreen := false,
         Tabs := [(unboundTab "http://a").cfg],
         Exec := { Command := "vlc", Args := [], WindowSearch := "VLC", SendKeys := [],
                   DelayBeforeSendKeys := 0 } },
       { Name := "x", DebugPort := 9224, X := 0, Y := 0, Fullscreen := false,
         Tabs := [(unboundTab "http://b").cfg],
         Exec := { Command := "", Args := [], WindowSearch := "", SendKeys := [],
                   DelayBeforeSendKeys := 0 } }] }

/-! ## Window locator: lemmas -/

theorem foundBefore_iff (id : String) (l : List String) : foundBefore id l = true ↔ id ∈ l := by
  induction l with
  | nil => simp [foundBefore]
  | cons b rest ih =>
    by_cases hb : id = b
    · simp [foundBefore, hb]
    · simp [foundBefore, hb, ih]

theorem filterNewIDs_eq (before : List String) (l acc : List String) :
    filterNewIDs before l acc = acc ++ l.filter (fun id => !foundBefore id before) := by
  induction l generalizing acc with
  | nil => simp [filterNewIDs]
  | cons a rest ih =>
    by_cases ha : foundBefore a before = true
    · simp [filterNewIDs, ha, ih]
    · simp [filterNewIDs, ha, ih]

theorem boundToDisplay_iff (windows : Windows) (id : String) :
    boundToDisplay windows id = true ↔ id ≠ "" ∧ ∃ w ∈ windows, w.2.WindowID = id := by
  unfold boundToDisplay
  simp only [List.any_eq_true, Bool.and_eq_true, decide_eq_true_eq]
  constructor
  · rintro ⟨w, hw, hne, he⟩
    exact ⟨he ▸ hne, w, hw, he⟩
  · rintro ⟨hne, w, hw, he⟩
    exact ⟨w, hw, he ▸ hne, he⟩

theorem mem_gatherExisting_iff (windows : Windows) (id : String) :
    id ∈ gatherExisting windows ↔ id ≠ "" ∧ ∃ w ∈ windows, w.2.WindowID = id := by
  induction windows with
  | nil => simp [gatherExisting]
  | cons w rest ih =>
    by_cases hw : w.2.WindowID = ""
    · simp only [gatherExisting, hw, ne_eq, not_true_eq_false, if_false, ih, List.mem_cons,
        exists_eq_or_imp]
      constructor
      · rintro ⟨hne, h⟩
        exact ⟨hne, Or.inr h⟩
      · rintro ⟨hne, h | h⟩
        · exact absurd h.symm hne
        · exact ⟨hne, h⟩
    · simp only [gatherExisting, hw, ne_eq, not_false_eq_true, if_true, List.mem_cons, ih,
        exists_eq_or_imp]
      constructor
      · rintro (h | ⟨hne, h⟩)
        · exact ⟨h ▸ hw, Or.inl h.symm⟩
        · exact ⟨hne, Or.inr h⟩
      · rintro ⟨hne, h | h⟩
        · exact Or.inl h.symm
        · exact Or.inr ⟨hne, h⟩

theorem mem_gatherExisting (windows : Windows) (id : String) :
    id ∈ gatherExisting windows ↔ boundToDisplay windows id = true := by
  rw [mem_gatherExisting_iff, boundToDisplay_iff]

theorem firstUnused_eq (existing l : List String) :
    firstUnused existing l = l.find? (fun id => !existing.contains id) := by
  induction l with
  | nil => simp [firstUnused]
  | cons a rest ih =>
    by_cases ha : existing.contains a = true
    · simp only [firstUnused, ha, if_true, ih]
      rw [List.find?_cons_of_neg]
      simp [ha]
      simpa using ha
    · simp only [firstUnused, ha]
      rw [List.find?_cons_of_pos]
      · simp
      · simpa using ha

/-- The last element of a non-empty `filter` splits the list: nothing after it
passes the test. -/
theorem filter_get_last_split (p : String → Bool) (l : List String)
    (h : (l.filter p).length - 1 < (l.filter p).length) :
    ∃ pre post, l = pre ++ (l.filter p).get ⟨(l.filter p).length - 1, h⟩ :: post ∧
      p ((l.filter p).get ⟨(l.filter p).length - 1, h⟩) = true ∧ ∀ x ∈ post, p x = false := by
  have hne : l.filter p ≠ [] := by
    intro h0
    rw [h0] at h
    simp at h
  have hget : (l.filter p).get ⟨(l.filter p).length - 1, h⟩ = (l.filter p).getLast hne := by
    rw [List.getLast_eq_getElem]
    rfl
  rw [hget]
  clear hget h
  induction l using List.reverseRecOn with
  | nil => simp at hne
  | append_singleton l a ih =>
    by_cases ha : p a = true
    · refine ⟨l, [], ?_, ?_, by simp⟩
      · simp [List.filter_append, ha]
      · simp [List.filter_append, ha]
    · have hf : (l ++ [a]).filter p = l.filter p := by simp [List.filter_append, ha]
      have hne2 : l.filter p ≠ [] := by rw [← hf]; exact hne
      obtain ⟨pre, post, hl, hp, hpost⟩ := ih hne2
      have hlast : ((l ++ [a]).filter p).getLast hne = (l.filter p).getLast hne2 := by
        simp only [hf]
      rw [hlast]
      refine ⟨pre, post ++ [a], ?_, hp, ?_⟩
      · conv_lhs => rw [hl]
        simp
      · intro x hx
        rcases List.mem_append.mp hx with hx | hx
        · exact hpost x hx
        · simp only [List.mem_singleton] at hx
          subst hx
          simpa using ha

/-- The function in terms of `filter`. -/
theorem xdotoolFindLatestWindowID_eq (windows : Windows) (name : String)
    (before after : List String) :
    xdotoolFindLatestWindowID windows name before after =
      if after.length = 0 then Except.error ("[" ++ name ++ "] No visible windows found")
      else pickWindowID windows name (after.filter (fun id => !foundBefore id before)) := by
  unfold xdotoolFindLatestWindowID
  simp only [filterNewIDs_eq, List.nil_append]

theorem mem_newIDs (before after : List String) (x : String) :
    x ∈ after.filter (fun id => !foundBefore id before) ↔ x ∈ after ∧ x ∉ before := by
  simp only [List.mem_filter, Bool.not_eq_true_eq_eq_false]
  constructor
  · rintro ⟨ha, hf⟩
    refine ⟨ha, fun hb => ?_⟩
    rw [(foundBefore_iff x before).mpr hb] at hf
    cases hf
  · rintro ⟨ha, hb⟩
    refine ⟨ha, ?_⟩
    cases hf : foundBefore x before with
    | false => rfl
    | true => exact absurd ((foundBefore_iff x before).mp hf) hb

/-! ## Window locator: claims C1-C3 -/

/-- C1: whenever some element of `after` is neither in `before` nor bound to a
display, the call succeeds and returns the first such element of `after`: the
result is in `after`, not in `before`, not bound to any display, and every
element of `after` in front of it is in `before` or bound. -/
theorem findLatest_returns_first_free (windows : Windows) (name : String)
    (before after : List String)
    (h : ∃ x ∈ after, x ∉ before ∧ boundToDisplay windows x = false) :
    ∃ pre id post, after = pre ++ id :: post ∧
      (∀ x ∈ pre, x ∈ before ∨ boundToDisplay windows x = true) ∧
      id ∉ before ∧ boundToDisplay windows id = false ∧
      xdotoolFindLatestWindowID windows name before after = Except.ok id := by
  obtain ⟨x, hxa, hxb, hxw⟩ := h
  have hxnew : x ∈ after.filter (fun id => !foundBefore id before) := by
    simp only [List.mem_filter, Bool.not_eq_true_eq_eq_false]
    refine ⟨hxa, ?_⟩
    cases hf : foundBefore x before with
    | false => rfl
    | true => exact absurd ((foundBefore_iff x before).mp hf) hxb
  have hxfree : (!(gatherExisting windows).contains x) = true := by
    cases hc : (gatherExisting windows).contains x with
    | false => rfl
    | true =>
      have hm : x ∈ gatherExisting windows := by simpa using hc
      rw [mem_gatherExisting] at hm
      rw [hm] at hxw
      cases hxw
  have hsome : ((after.filter (fun id => !foundBefore id before)).find?
      (fun id => !(gatherExisting windows).contains id)).isSome = true := by
    rw [List.find?_isSome]
    exact ⟨x, hxnew, hxfree⟩
  obtain ⟨id, hid⟩ := Option.isSome_iff_exists.mp hsome
  have hres : xdotoolFindLatestWindowID windows name before after = Except.ok id := by
    rw [xdotoolFindLatestWindowID_eq]
    unfold pickWindowID
    rw [firstUnused_eq]
    have h1 : ¬ after.length = 0 := by
      intro h0
      rw [List.length_eq_zero] at h0
      rw [h0] at hxa
      cases hxa
    have h2 : ¬ (after.filter (fun id => !foundBefore id before)).length = 0 := by
      intro h0
      rw [List.length_eq_zero] at h0
      rw [h0] at hxnew
      cases hxnew
    rw [if_neg h1, dif_neg h2, hid]
  rw [List.find?_filter, List.find?_eq_some] at hid
  obtain ⟨hp, pre, post, hsplit, hpre⟩ := hid
  simp only [Bool.not_eq_true_eq_eq_false, decide_eq_true_eq] at hp
  refine ⟨pre, id, post, hsplit, ?_, ?_, ?_, hres⟩
  · intro y hy
    have hy2 := hpre y hy
    by_cases hyb : y ∈ before
    · exact Or.inl hyb
    · right
      have hfb : foundBefore y before = false := by
        cases hf : foundBefore y before with
        | false => rfl
        | true => exact absurd ((foundBefore_iff y before).mp hf) hyb
      rw [← mem_gatherExisting]
      simpa [hfb] using hy2
  · intro hb
    have := (foundBefore_iff id before).mpr hb
    rw [hp.1] at this
    cases this
  · cases hbd : boundToDisplay windows id with
    | false => rfl
    | true =>
      rw [← mem_gatherExisting] at hbd
      have hc : (gatherExisting windows).contains id = true := by simpa using hbd
      rw [hp.2] at hc
      cases hc

/-- Instance of C1: display `a` holds window 3, windows 3 and 4 are new. -/
theorem findLatest_returns_first_free_witness :
    ∃ pre id post, ["1", "2", "3", "4"] = pre ++ id :: post ∧
      (∀ x ∈ pre, x ∈ ["1", "2"] ∨
        boundToDisplay [("a", ⟨⟨"a", 0, 0, 0, false, [], ⟨"", [], "", [], 0⟩⟩, 0, [], "3"⟩)] x = true) ∧
      id ∉ ["1", "2"] ∧
      boundToDisplay [("a", ⟨⟨"a", 0, 0, 0, false, [], ⟨"", [], "", [], 0⟩⟩, 0, [], "3"⟩)] id = false ∧
      xdotoolFindLatestWindowID
        [("a", ⟨⟨"a", 0, 0, 0, false, [], ⟨"", [], "", [], 0⟩⟩, 0, [], "3"⟩)] "b"
        ["1", "2"] ["1", "2", "3", "4"] = Except.ok id :=
  findLatest_returns_first_free
    [("a", ⟨⟨"a", 0, 0, 0, false, [], ⟨"", [], "", [], 0⟩⟩, 0, [], "3"⟩)] "b"
    ["1", "2"] ["1", "2", "3", "4"] ⟨"4", by decide, by decide, by decide⟩

/-- C2: the call fails if and only if no element of `after` is absent from
`before` (so in particular when `after` is empty); the displays map plays no
part in that. -/
theorem findLatest_error_iff (windows : Windows) (name : String) (before after : List String) :
    (∃ e, xdotoolFindLatestWindowID windows name before after = Except.error e) ↔
      ∀ x ∈ after, x ∈ before := by
  rw [xdotoolFindLatestWindowID_eq]
  by_cases h1 : after.length = 0
  · rw [if_pos h1]
    rw [List.length_eq_zero] at h1
    subst h1
    simp
  · rw [if_neg h1]
    unfold pickWindowID
    by_cases h2 : (after.filter (fun id => !foundBefore id before)).length = 0
    · rw [dif_pos h2]
      rw [List.length_eq_zero] at h2
      constructor
      · intro _ x hx
        by_contra hb
        have hm := (mem_newIDs before after x).mpr ⟨hx, hb⟩
        rw [h2] at hm
        cases hm
      · intro _
        exact ⟨_, rfl⟩
    · rw [dif_neg h2]
      constructor
      · rintro ⟨e, he⟩
        split at he <;> cases he
      · intro hall
        exfalso
        apply h2
        rw [List.length_eq_zero, List.filter_eq_nil_iff]
        intro x hx
        have := (foundBefore_iff x before).mpr (hall x hx)
        simp [this]

/-- C3: when `after` holds a handle that `before` lacks and every such handle
is bound to a display, the call succeeds and returns the last element of
`after` that is not in `before`. -/
theorem findLatest_fallback_last_new (windows : Windows) (name : String)
    (before after : List String)
    (hnew : ∃ x ∈ after, x ∉ before)
    (htaken : ∀ x ∈ after, x ∉ before → boundToDisplay windows x = true) :
    ∃ pre id post, after = pre ++ id :: post ∧ id ∉ before ∧ (∀ x ∈ post, x ∈ before) ∧
      xdotoolFindLatestWindowID windows name before after = Except.ok id := by
  obtain ⟨x, hxa, hxb⟩ := hnew
  have hxnew := (mem_newIDs before after x).mpr ⟨hxa, hxb⟩
  have h1 : ¬ after.length = 0 := by
    intro h0
    rw [List.length_eq_zero] at h0
    rw [h0] at hxa
    cases hxa
  have h2 : ¬ (after.filter (fun id => !foundBefore id before)).length = 0 := by
    intro h0
    rw [List.length_eq_zero] at h0
    rw [h0] at hxnew
    cases hxnew
  have hnone : (after.filter (fun id => !foundBefore id before)).find?
      (fun id => !(gatherExisting windows).contains id) = none := by
    rw [List.find?_eq_none]
    intro y hy
    have hy2 := (mem_newIDs before after y).mp hy
    have hb := htaken y hy2.1 hy2.2
    rw [← mem_gatherExisting] at hb
    simpa using hb
  have hlt : (after.filter (fun id => !foundBefore id before)).length - 1 <
      (after.filter (fun id => !foundBefore id before)).length := by omega
  obtain ⟨pre, post, hsplit, hp, hpost⟩ :=
    filter_get_last_split (fun id => !foundBefore id before) after hlt
  refine ⟨pre, _, post, hsplit, ?_, ?_, ?_⟩
  · intro hb
    rw [(foundBefore_iff _ before).mpr hb] at hp
    cases hp
  · intro y hy
    have := hpost y hy
    simp only [Bool.not_eq_false_eq_eq_true] at this
    exact (foundBefore_iff y before).mp (by simpa using this)
  · rw [xdotoolFindLatestWindowID_eq, if_neg h1]
    unfold pickWindowID
    rw [dif_neg h2, firstUnused_eq, hnone]

/-- Instance of C3: window 3 is new and already held by display `a`. -/
theorem findLatest_fallback_last_new_witness :
    ∃ pre id post, ["1", "2", "3"] = pre ++ id :: post ∧ id ∉ ["1", "2"] ∧
      (∀ x ∈ post, x ∈ ["1", "2"]) ∧
      xdotoolFindLatestWindowID
        [("a", ⟨⟨"a", 0, 0, 0, false, [], ⟨"", [], "", [], 0⟩⟩, 0, [], "3"⟩)] "b"
        ["1", "2"] ["1", "2", "3"] = Except.ok id :=
  findLatest_fallback_last_new
    [("a", ⟨⟨"a", 0, 0, 0, false, [], ⟨"", [], "", [], 0⟩⟩, 0, [], "3"⟩)] "b"
    ["1", "2"] ["1", "2", "3"] ⟨"3", by decide, by decide⟩ (by decide)

/-- The three window-resolution examples of the spec, evaluated. -/
theorem findLatest_examples :
    xdotoolFindLatestWindowID [] "b" ["1", "2"] ["1", "2", "3"] = Except.ok "3" ∧
    xdotoolFindLatestWindowID [] "b" ["1", "2"] ["1", "2"] =
      Except.error "[b] No new window found after exec" ∧
    xdotoolFindLatestWindowID
      [("a", ⟨⟨"a", 0, 0, 0, false, [], ⟨"", [], "", [], 0⟩⟩, 0, [], "3"⟩)] "b"
      ["1", "2"] ["1", "2", "3"] = Except.ok "3" := by
  refine ⟨rfl, rfl, rfl⟩


/-! ## Tab cycler: lemmas -/

theorem refreshTabAndWait_frame (r : RequestID) (tab : TabState) (env : RefreshEnv) :
    (refreshTabAndWait r tab env).tab.ID = tab.ID ∧
    (refreshTabAndWait r tab env).tab.cfg = tab.cfg ∧
    (refreshTabAndWait r tab env).tab.WSURL = tab.WSURL := by
  unfold refreshTabAndWait
  split
  · simp
  · split <;> simp

theorem activations_append (l1 l2 : List Event) :
    activations (l1 ++ l2) = activations l1 ++ activations l2 := by
  induction l1 with
  | nil => simp [activations]
  | cons e rest ih => cases e <;> simp [activations, ih]

theorem refreshCount_append (site : RefreshSite) (l1 l2 : List Event) :
    refreshCount site (l1 ++ l2) = refreshCount site l1 + refreshCount site l2 := by
  induction l1 with
  | nil => simp [refreshCount]
  | cons e rest ih => cases e <;> simp [refreshCount, ih, Nat.add_assoc]

theorem tabIteration_activations (port : Int) (i : Nat) (tab : TabState) (r : RequestID)
    (env : IterEnv) :
    activations (tabIteration port i tab r env).events = [(i, port, tab.ID)] := by
  simp only [tabIteration, dwellStep, afterLoadStep, activateStep, beforeLoadStep, intervalStep,
    refreshInto]
  split_ifs <;> simp [activations, activations_append, (refreshTabAndWait_frame _ _ _).1]


theorem tabIteration_stopped (port : Int) (i : Nat) (tab : TabState) (r : RequestID)
    (env : IterEnv) : (tabIteration port i tab r env).stopped = env.dwellCancelled := by
  simp only [tabIteration, dwellStep]

theorem tabIteration_tab_ID (port : Int) (i : Nat) (tab : TabState) (r : RequestID)
    (env : IterEnv) : (tabIteration port i tab r env).tab.ID = tab.ID := by
  simp only [tabIteration, dwellStep, afterLoadStep, activateStep, beforeLoadStep, intervalStep,
    refreshInto]
  split_ifs <;> simp [(refreshTabAndWait_frame _ _ _).1]

theorem tabIteration_tab_cfg (port : Int) (i : Nat) (tab : TabState) (r : RequestID)
    (env : IterEnv) : (tabIteration port i tab r env).tab.cfg = tab.cfg := by
  simp only [tabIteration, dwellStep, afterLoadStep, activateStep, beforeLoadStep, intervalStep,
    refreshInto]
  split_ifs <;> simp [(refreshTabAndWait_frame _ _ _).2.1]

theorem tabIteration_last_event (port : Int) (i : Nat) (tab : TabState) (r : RequestID)
    (env : IterEnv) :
    (tabIteration port i tab r env).events.getLast? =
      some (Event.dwell i (wrap64 (tab.cfg.DwellTime * second))) := by
  have hcfg := tabIteration_tab_cfg port i tab r env
  simp only [tabIteration, dwellStep] at hcfg ⊢
  rw [List.getLast?_append, hcfg]
  simp

/-- Writing back a tab with the same `ID` leaves the list of ids as it was. -/
theorem map_ID_set (tabs : List TabState) (i : Nat) (tab t : TabState)
    (h : tabs[i]? = some tab) (ht : t.ID = tab.ID) :
    (tabs.set i t).map TabState.ID = tabs.map TabState.ID := by
  apply List.ext_getElem?
  intro j
  rw [List.getElem?_map, List.getElem?_map, List.getElem?_set]
  by_cases hij : i = j
  · subst hij
    have hlt : i < tabs.length := by
      rcases Nat.lt_or_ge i tabs.length with h1 | h1
      · exact h1
      · rw [List.getElem?_eq_none h1] at h
        cases h
    simp [hlt, h, ht]
  · simp [hij]

/-- What one step of a running cycler does to the state. -/
theorem cyclerStep_running (s : CyclerState) (env : IterEnv) (tab : TabState)
    (hrun : s.stopped = false) (htab : s.display.Tabs[s.next]? = some tab) :
    (cyclerStep s env).stopped = env.dwellCancelled ∧
    (cyclerStep s env).next = (s.next + 1) % s.display.Tabs.length ∧
    (cyclerStep s env).display.DebugPort = s.display.DebugPort ∧
    (cyclerStep s env).display.Tabs.length = s.display.Tabs.length ∧
    (cyclerStep s env).display.Tabs.map TabState.ID = s.display.Tabs.map TabState.ID ∧
    activations (cyclerStep s env).trace =
      activations s.trace ++ [(s.next, s.display.DebugPort, tab.ID)] := by
  have hlt : s.next < s.display.Tabs.length := by
    rcases Nat.lt_or_ge s.next s.display.Tabs.length with h1 | h1
    · exact h1
    · rw [List.getElem?_eq_none h1] at htab
      cases htab
  have hstep : cyclerStep s env =
      { display :=
          { s.display with
            Tabs := s.display.Tabs.set s.next
              (tabIteration s.display.DebugPort s.next tab s.requestID env).tab }
        requestID := (tabIteration s.display.DebugPort s.next tab s.requestID env).requestID
        next := if s.next + 1 < s.display.Tabs.length then s.next + 1 else 0
        stopped := (tabIteration s.display.DebugPort s.next tab s.requestID env).stopped
        trace := s.trace ++ (tabIteration s.display.DebugPort s.next tab s.requestID env).events } := by
    unfold cyclerStep
    simp only [hrun, Bool.false_eq_true, if_false, htab]
  rw [hstep]
  refine ⟨tabIteration_stopped s.display.DebugPort s.next tab s.requestID env, ?_, rfl, ?_, ?_, ?_⟩
  · show (if s.next + 1 < s.display.Tabs.length then s.next + 1 else 0) = _
    by_cases h1 : s.next + 1 < s.display.Tabs.length
    · rw [if_pos h1, Nat.mod_eq_of_lt h1]
    · rw [if_neg h1]
      have : s.next + 1 = s.display.Tabs.length := by omega
      rw [this, Nat.mod_self]
  · simp
  · exact map_ID_set _ _ tab _ htab (tabIteration_tab_ID _ _ _ _ _)
  · rw [activations_append, tabIteration_activations]

/-- The activate requests of a running cycler over any number of steps none of
whose dwell waits is cut short. -/
theorem runCycler_activations (envs : List IterEnv) (s : CyclerState)
    (hrun : s.stopped = false) (hnext : s.next < s.display.Tabs.length)
    (hcancel : ∀ e ∈ envs, e.dwellCancelled = false) :
    (runCycler s envs).stopped = false ∧
    activations (runCycler s envs).trace = activations s.trace ++
      (List.range envs.length).map (fun j =>
        ((s.next + j) % s.display.Tabs.length, s.display.DebugPort,
          (s.display.Tabs.map TabState.ID).getD ((s.next + j) % s.display.Tabs.length) "")) := by
  induction envs generalizing s with
  | nil => simp [runCycler, hrun]
  | cons e es ih =>
    obtain ⟨tab, htab⟩ : ∃ tab, s.display.Tabs[s.next]? = some tab :=
      ⟨s.display.Tabs[s.next], List.getElem?_eq_getElem hnext⟩
    obtain ⟨h1, h2, h3, h4, h5, h6⟩ := cyclerStep_running s e tab hrun htab
    have hpos : 0 < s.display.Tabs.length := by omega
    have hrun2 : (cyclerStep s e).stopped = false := by
      rw [h1]
      exact hcancel e (List.mem_cons_self _ _)
    have hnext2 : (cyclerStep s e).next < (cyclerStep s e).display.Tabs.length := by
      rw [h2, h4]
      exact Nat.mod_lt _ hpos
    have hih := ih (cyclerStep s e) hrun2 hnext2
      (fun x hx => hcancel x (List.mem_cons_of_mem _ hx))
    have hfold : runCycler s (e :: es) = runCycler (cyclerStep s e) es := rfl
    rw [hfold]
    refine ⟨hih.1, ?_⟩
    rw [hih.2, h6, h2, h3, h4, h5, List.length_cons, List.range_succ_eq_map, List.map_cons,
      List.map_map, List.append_assoc]
    congr 1
    have hid : tab.ID = (s.display.Tabs.map TabState.ID).getD (s.next % s.display.Tabs.length) "" := by
      rw [Nat.mod_eq_of_lt hnext, List.getD_eq_getElem?_getD, List.getElem?_map, htab]
      rfl
    simp only [List.singleton_append, Nat.add_zero, Nat.mod_eq_of_lt hnext] at hid ⊢
    refine congrArg₂ List.cons ?_ ?_
    · rw [hid]
    · apply List.map_congr_left
      intro j _
      simp only [Function.comp, Nat.mod_add_mod, Nat.succ_eq_add_one]
      have : s.next + 1 + j = s.next + (j + 1) := by omega
      rw [this]

/-- The refreshes a per-tab step performs at each call site, from the two
tests of `refreshed`. -/
theorem tabIteration_refreshCounts (port : Int) (i : Nat) (tab : TabState) (r : RequestID)
    (env : IterEnv) :
    refreshCount RefreshSite.interval (tabIteration port i tab r env).events =
      (if intervalDue tab env = true then 1 else 0) ∧
    refreshCount RefreshSite.beforeLoad (tabIteration port i tab r env).events =
      (if (intervalStep i env ⟨tab, r, false, [], false⟩).refreshed = false ∧
          tab.cfg.RefreshBeforeLoad = true then 1 else 0) ∧
    refreshCount RefreshSite.afterLoad (tabIteration port i tab r env).events =
      (if (tabIteration port i tab r env).refreshed = false ∧
          tab.cfg.RefreshAfterLoad = true then 1 else 0) := by
  simp only [tabIteration, dwellStep, afterLoadStep, activateStep, beforeLoadStep, intervalStep,
    refreshInto]
  refine ⟨?_, ?_, ?_⟩ <;>
    split_ifs <;>
    simp_all [refreshCount, refreshCount_append, (refreshTabAndWait_frame _ _ _).2.1]

/-! ## Tab cycler: claims C4-C8 -/

/-- C4: for a display with at least one tab, started by `tabCycler`, and any
number of per-tab steps none of whose dwell waits is ended by cancellation, the
cycler is still running, has issued one activate request per step, and the
`j`-th request (`j = 0, 1, 2, ...`) is for the tab at index `j mod n`, on the
display's port and with that tab's target id, whatever the flags of the tabs
and the outcomes of refreshes and activations. -/
theorem tabCycler_activation_order (k k2 : Kiosk) (name : String) (s : CyclerState)
    (hstart : tabCycler k name = (k2, some s)) (hn : 1 ≤ s.display.Tabs.length)
    (envs : List IterEnv) (hcancel : ∀ e ∈ envs, e.dwellCancelled = false) :
    (runCycler s envs).stopped = false ∧
    (activations (runCycler s envs).trace).length = envs.length ∧
    ∀ j, j < envs.length → ∃ tab, s.display.Tabs[j % s.display.Tabs.length]? = some tab ∧
      (activations (runCycler s envs).trace)[j]? =
        some (j % s.display.Tabs.length, s.display.DebugPort, tab.ID) := by
  have hs : s.next = 0 ∧ s.stopped = false ∧ s.trace = [] := by
    unfold tabCycler at hstart
    split at hstart
    · cases hstart
    · simp only [Prod.mk.injEq, Option.some.injEq] at hstart
      rw [← hstart.2]
      exact ⟨rfl, rfl, rfl⟩
  obtain ⟨h1, h2⟩ := runCycler_activations envs s hs.2.1 (by omega) hcancel
  rw [hs.1, hs.2.2] at h2
  simp only [activations, List.nil_append, Nat.zero_add] at h2
  refine ⟨h1, ?_, ?_⟩
  · rw [h2]
    simp
  · intro j hj
    have hlt : j % s.display.Tabs.length < s.display.Tabs.length := Nat.mod_lt _ (by omega)
    refine ⟨s.display.Tabs[j % s.display.Tabs.length], List.getElem?_eq_getElem hlt, ?_⟩
    rw [h2, List.getElem?_map, List.getElem?_range hj]
    simp only [Option.map_some']
    rw [List.getD_eq_getElem?_getD, List.getElem?_map, List.getElem?_eq_getElem hlt]
    rfl

/-- Instance of C4: the spec's two-tab display over three steps. -/
theorem tabCycler_activation_order_witness :
    (runCycler ⟨sampleDisplay, ⟨1⟩, 0, false, []⟩ [quietEnv 0, quietEnv 0, quietEnv 0]).stopped
      = false ∧
    (activations (runCycler ⟨sampleDisplay, ⟨1⟩, 0, false, []⟩
      [quietEnv 0, quietEnv 0, quietEnv 0]).trace).length = 3 ∧
    ∀ j, j < 3 → ∃ tab, sampleDisplay.Tabs[j % 2]? = some tab ∧
      (activations (runCycler ⟨sampleDisplay, ⟨1⟩, 0, false, []⟩
        [quietEnv 0, quietEnv 0, quietEnv 0]).trace)[j]? = some (j % 2, 9222, tab.ID) :=
  tabCycler_activation_order sampleKiosk { sampleKiosk with wg := 1 } "d"
    ⟨sampleDisplay, ⟨1⟩, 0, false, []⟩ rfl (by decide)
    [quietEnv 0, quietEnv 0, quietEnv 0]
    (by intro e he; simp only [List.mem_cons, List.mem_singleton, List.not_mem_nil, or_false] at he; rcases he with h | h | h <;> rw [h] <;> rfl)

/-- The end-to-end example of the spec: tab 0, then tab 1, then tab 0 again,
and the cycler has not stopped. -/
theorem tabCycler_two_tabs_example :
    activations (runCycler ⟨sampleDisplay, ⟨1⟩, 0, false, []⟩
      [quietEnv 0, quietEnv 0, quietEnv 0]).trace = [(0, 9222, "A"), (1, 9222, "B"), (0, 9222, "A")] ∧
    (runCycler ⟨sampleDisplay, ⟨1⟩, 0, false, []⟩ [quietEnv 0, quietEnv 0, quietEnv 0]).stopped
      = false := by
  refine ⟨by decide, by decide⟩

/-- C5, amended: in a per-tab step with `RefreshBeforeLoad` set in which the
interval refresh did not fire, exactly one before-load refresh is performed;
when it succeeds the after-load refresh is skipped whatever `RefreshAfterLoad`
says, and when it fails the after-load refresh is performed exactly when
`RefreshAfterLoad` is set. -/
theorem beforeLoad_refresh_gating (port : Int) (i : Nat) (tab : TabState) (r : RequestID)
    (env : IterEnv) (hflag : tab.cfg.RefreshBeforeLoad = true)
    (hnot : intervalDue tab env = false) :
    refreshCount RefreshSite.interval (tabIteration port i tab r env).events = 0 ∧
    refreshCount RefreshSite.beforeLoad (tabIteration port i tab r env).events = 1 ∧
    ((refreshTabAndWait r tab env.beforeLoad).ok = true →
      refreshCount RefreshSite.afterLoad (tabIteration port i tab r env).events = 0) ∧
    ((refreshTabAndWait r tab env.beforeLoad).ok = false →
      refreshCount RefreshSite.afterLoad (tabIteration port i tab r env).events =
        if tab.cfg.RefreshAfterLoad = true then 1 else 0) := by
  simp only [tabIteration, dwellStep, afterLoadStep, activateStep, beforeLoadStep, intervalStep,
    refreshInto, hnot, hflag]
  refine ⟨?_, ?_, ?_, ?_⟩
  · split_ifs <;> simp_all [refreshCount, refreshCount_append]
  · split_ifs <;> simp_all [refreshCount, refreshCount_append]
  · intro hok
    split_ifs <;> simp_all [refreshCount, refreshCount_append]
  · intro hok
    split_ifs <;>
      simp_all [refreshCount, refreshCount_append, (refreshTabAndWait_frame _ _ _).2.1]

/-- Instance of C5 (amended): both flags set, the before-load send fails. -/
theorem beforeLoad_refresh_gating_witness :
    refreshCount RefreshSite.interval
      (tabIteration 9222 0 (sampleTab "A" true true 0 "ws://a") ⟨1⟩ (sendFailsEnv 0)).events = 0 ∧
    refreshCount RefreshSite.beforeLoad
      (tabIteration 9222 0 (sampleTab "A" true true 0 "ws://a") ⟨1⟩ (sendFailsEnv 0)).events = 1 ∧
    ((refreshTabAndWait ⟨1⟩ (sampleTab "A" true true 0 "ws://a") (sendFailsEnv 0).beforeLoad).ok
        = true →
      refreshCount RefreshSite.afterLoad
        (tabIteration 9222 0 (sampleTab "A" true true 0 "ws://a") ⟨1⟩ (sendFailsEnv 0)).events
        = 0) ∧
    ((refreshTabAndWait ⟨1⟩ (sampleTab "A" true true 0 "ws://a") (sendFailsEnv 0).beforeLoad).ok
        = false →
      refreshCount RefreshSite.afterLoad
        (tabIteration 9222 0 (sampleTab "A" true true 0 "ws://a") ⟨1⟩ (sendFailsEnv 0)).events =
        if (sampleTab "A" true true 0 "ws://a").cfg.RefreshAfterLoad = true then 1 else 0) :=
  beforeLoad_refresh_gating 9222 0 (sampleTab "A" true true 0 "ws://a") ⟨1⟩ (sendFailsEnv 0)
    rfl (by decide)

/-- C5 as stated fails: `RefreshBeforeLoad` is set, the interval refresh does
not fire, the before-load refresh fails to send, and the after-load refresh
is performed. -/
theorem afterLoad_refresh_not_skipped :
    (sampleTab "A" true true 0 "ws://a").cfg.RefreshBeforeLoad = true ∧
    intervalDue (sampleTab "A" true true 0 "ws://a") (sendFailsEnv 0) = false ∧
    refreshCount RefreshSite.beforeLoad
      (tabIteration 9222 0 (sampleTab "A" true true 0 "ws://a") ⟨1⟩ (sendFailsEnv 0)).events = 1 ∧
    refreshCount RefreshSite.afterLoad
      (tabIteration 9222 0 (sampleTab "A" true true 0 "ws://a") ⟨1⟩ (sendFailsEnv 0)).events = 1 := by
  refine ⟨rfl, by decide, by decide, by decide⟩

/-- C6, amended: in a per-tab step in which the interval refresh fires, one
interval refresh is performed; when it succeeds the tab is marked refreshed
and neither a before-load nor an after-load refresh is performed, whatever the
flags; when it fails a before-load refresh is performed exactly when
`RefreshBeforeLoad` is set. -/
theorem interval_refresh_gating (port : Int) (i : Nat) (tab : TabState) (r : RequestID)
    (env : IterEnv) (hdue : intervalDue tab env = true) :
    refreshCount RefreshSite.interval (tabIteration port i tab r env).events = 1 ∧
    ((refreshTabAndWait r tab env.interval).ok = true →
      (tabIteration port i tab r env).refreshed = true ∧
      refreshCount RefreshSite.beforeLoad (tabIteration port i tab r env).events = 0 ∧
      refreshCount RefreshSite.afterLoad (tabIteration port i tab r env).events = 0) ∧
    ((refreshTabAndWait r tab env.interval).ok = false →
      refreshCount RefreshSite.beforeLoad (tabIteration port i tab r env).events =
        if tab.cfg.RefreshBeforeLoad = true then 1 else 0) := by
  simp only [tabIteration, dwellStep, afterLoadStep, activateStep, beforeLoadStep, intervalStep,
    refreshInto, hdue]
  refine ⟨?_, ?_, ?_⟩
  · split_ifs <;> simp_all [refreshCount, refreshCount_append]
  · intro hok
    refine ⟨?_, ?_, ?_⟩ <;> split_ifs <;> simp_all [refreshCount, refreshCount_append]
  · intro hok
    split_ifs <;>
      simp_all [refreshCount, refreshCount_append, (refreshTabAndWait_frame _ _ _).2.1]

/-- Instance of C6 (amended): interval of one second, two seconds elapsed. -/
theorem interval_refresh_gating_witness :
    refreshCount RefreshSite.interval
      (tabIteration 9222 0 (sampleTab "A" true true 1 "ws://a") ⟨1⟩
        (quietEnv 2000000000)).events = 1 ∧
    ((refreshTabAndWait ⟨1⟩ (sampleTab "A" true true 1 "ws://a")
        (quietEnv 2000000000).interval).ok = true →
      (tabIteration 9222 0 (sampleTab "A" true true 1 "ws://a") ⟨1⟩
        (quietEnv 2000000000)).refreshed = true ∧
      refreshCount RefreshSite.beforeLoad
        (tabIteration 9222 0 (sampleTab "A" true true 1 "ws://a") ⟨1⟩
          (quietEnv 2000000000)).events = 0 ∧
      refreshCount RefreshSite.afterLoad
        (tabIteration 9222 0 (sampleTab "A" true true 1 "ws://a") ⟨1⟩
          (quietEnv 2000000000)).events = 0) ∧
    ((refreshTabAndWait ⟨1⟩ (sampleTab "A" true true 1 "ws://a")
        (quietEnv 2000000000).interval).ok = false →
      refreshCount RefreshSite.beforeLoad
        (tabIteration 9222 0 (sampleTab "A" true true 1 "ws://a") ⟨1⟩
          (quietEnv 2000000000)).events =
        if (sampleTab "A" true true 1 "ws://a").cfg.RefreshBeforeLoad = true then 1 else 0) :=
  interval_refresh_gating 9222 0 (sampleTab "A" true true 1 "ws://a") ⟨1⟩ (quietEnv 2000000000)
    (by decide)

/-- C6 as stated fails: the interval refresh fires but its send fails, the tab
is not marked refreshed and a before-load refresh is performed. -/
theorem interval_refresh_failed_not_marked :
    intervalDue (sampleTab "A" true false 1 "ws://a") (sendFailsEnv 2000000000) = true ∧
    (intervalStep 0 (sendFailsEnv 2000000000)
      ⟨sampleTab "A" true false 1 "ws://a", ⟨1⟩, false, [], false⟩).refreshed = false ∧
    (tabIteration 9222 0 (sampleTab "A" true false 1 "ws://a") ⟨1⟩
      (sendFailsEnv 2000000000)).refreshed = false ∧
    refreshCount RefreshSite.beforeLoad
      (tabIteration 9222 0 (sampleTab "A" true false 1 "ws://a") ⟨1⟩
        (sendFailsEnv 2000000000)).events = 1 := by
  refine ⟨by decide, by decide, by decide, by decide⟩

theorem wrap64_of_range (n : Int) (hlo : -9223372036854775808 ≤ n)
    (hhi : n ≤ 9223372036854775807) : wrap64 n = n := by
  unfold wrap64
  omega

/-- C7, amended: for a `RefreshInterval` of at most 9223372036 seconds (so
that it fits a 64-bit nanosecond duration) the interval refresh is attempted
in a per-tab step if and only if `RefreshInterval > 0` and the time elapsed
since `LastRefresh` is strictly greater than `RefreshInterval` seconds; with
`RefreshInterval = 10` and fewer than ten seconds elapsed, and with any
`RefreshInterval <= 0`, it is not attempted. -/
theorem interval_refresh_iff (port : Int) (i : Nat) (tab : TabState) (r : RequestID)
    (env : IterEnv) (hbound : tab.cfg.RefreshInterval ≤ 9223372036) :
    (refreshCount RefreshSite.interval (tabIteration port i tab r env).events = 1 ↔
      (0 < tab.cfg.RefreshInterval ∧
        tab.cfg.RefreshInterval * second < env.since tab.LastRefresh)) ∧
    (refreshCount RefreshSite.interval (tabIteration port i tab r env).events = 0 ↔
      ¬ (0 < tab.cfg.RefreshInterval ∧
        tab.cfg.RefreshInterval * second < env.since tab.LastRefresh)) ∧
    (tab.cfg.RefreshInterval = 10 → env.since tab.LastRefresh < 10 * second →
      refreshCount RefreshSite.interval (tabIteration port i tab r env).events = 0) ∧
    (tab.cfg.RefreshInterval ≤ 0 →
      refreshCount RefreshSite.interval (tabIteration port i tab r env).events = 0) := by
  have hcount := (tabIteration_refreshCounts port i tab r env).1
  have hdue : intervalDue tab env = true ↔
      (0 < tab.cfg.RefreshInterval ∧
        tab.cfg.RefreshInterval * second < env.since tab.LastRefresh) := by
    unfold intervalDue
    simp only [Bool.and_eq_true, decide_eq_true_eq, gt_iff_lt]
    constructor
    · rintro ⟨h1, h2⟩
      rw [wrap64_of_range _ (by unfold second; omega) (by unfold second; omega)] at h2
      exact ⟨h1, h2⟩
    · rintro ⟨h1, h2⟩
      rw [wrap64_of_range _ (by unfold second; omega) (by unfold second; omega)]
      exact ⟨h1, h2⟩
  rw [hcount]
  refine ⟨?_, ?_, ?_, ?_⟩
  · rw [← hdue]
    by_cases h : intervalDue tab env = true <;> simp [h]
  · rw [← hdue]
    by_cases h : intervalDue tab env = true <;> simp [h]
  · intro h10 hlt
    have : ¬ intervalDue tab env = true := by
      rw [hdue, h10]
      omega
    simp [this]
  · intro hle
    have : ¬ intervalDue tab env = true := by
      rw [hdue]
      omega
    simp [this]

/-- Instance of C7 (amended): interval of ten seconds, nine seconds elapsed. -/
theorem interval_refresh_iff_witness :
    (refreshCount RefreshSite.interval
        (tabIteration 9222 0 (sampleTab "A" false false 10 "ws://a") ⟨1⟩
          (quietEnv 9000000000)).events = 1 ↔
      (0 < (sampleTab "A" false false 10 "ws://a").cfg.RefreshInterval ∧
        (sampleTab "A" false false 10 "ws://a").cfg.RefreshInterval * second <
          (quietEnv 9000000000).since (sampleTab "A" false false 10 "ws://a").LastRefresh)) ∧
    (refreshCount RefreshSite.interval
        (tabIteration 9222 0 (sampleTab "A" false false 10 "ws://a") ⟨1⟩
          (quietEnv 9000000000)).events = 0 ↔
      ¬ (0 < (sampleTab "A" false false 10 "ws://a").cfg.RefreshInterval ∧
        (sampleTab "A" false false 10 "ws://a").cfg.RefreshInterval * second <
          (quietEnv 9000000000).since (sampleTab "A" false false 10 "ws://a").LastRefresh)) ∧
    ((sampleTab "A" false false 10 "ws://a").cfg.RefreshInterval = 10 →
      (quietEnv 9000000000).since (sampleTab "A" false false 10 "ws://a").LastRefresh <
        10 * second →
      refreshCount RefreshSite.interval
        (tabIteration 9222 0 (sampleTab "A" false false 10 "ws://a") ⟨1⟩
          (quietEnv 9000000000)).events = 0) ∧
    ((sampleTab "A" false false 10 "ws://a").cfg.RefreshInterval ≤ 0 →
      refreshCount RefreshSite.interval
        (tabIteration 9222 0 (sampleTab "A" false false 10 "ws://a") ⟨1⟩
          (quietEnv 9000000000)).events = 0) :=
  interval_refresh_iff 9222 0 (sampleTab "A" false false 10 "ws://a") ⟨1⟩ (quietEnv 9000000000)
    (by decide)

/-- C7 as stated fails: with `RefreshInterval = 9223372037` the product with
`time.Second` wraps to a negative duration, and the interval refresh is
attempted although no time has elapsed since `LastRefresh`. -/
theorem interval_refresh_overflow :
    ¬ ((sampleTab "A" false false 9223372037 "ws://a").cfg.RefreshInterval * second <
        (quietEnv 0).since (sampleTab "A" false false 9223372037 "ws://a").LastRefresh) ∧
    wrap64 ((sampleTab "A" false false 9223372037 "ws://a").cfg.RefreshInterval * second) =
      -9223372036709551616 ∧
    refreshCount RefreshSite.interval
      (tabIteration 9222 0 (sampleTab "A" false false 9223372037 "ws://a") ⟨1⟩
        (quietEnv 0)).events = 1 := by
  refine ⟨by decide, by decide, by decide⟩

/-- C8: in a per-tab step of a running cycler exactly one activate request is
issued, for the port of the display and the target id of the tab, whatever the
refreshes of the step returned; whatever the request itself returned, the step
ends with the dwell wait, stops only when that wait is cancelled, and hands
over to the next tab. -/
theorem activate_once_nonfatal (s : CyclerState) (env : IterEnv) (tab : TabState)
    (hrun : s.stopped = false) (htab : s.display.Tabs[s.next]? = some tab) :
    activations (tabIteration s.display.DebugPort s.next tab s.requestID env).events =
      [(s.next, s.display.DebugPort, tab.ID)] ∧
    Event.activate s.next s.display.DebugPort tab.ID env.activateErr ∈
      (tabIteration s.display.DebugPort s.next tab s.requestID env).events ∧
    (tabIteration s.display.DebugPort s.next tab s.requestID env).events.getLast? =
      some (Event.dwell s.next (wrap64 (tab.cfg.DwellTime * second))) ∧
    (cyclerStep s env).trace =
      s.trace ++ (tabIteration s.display.DebugPort s.next tab s.requestID env).events ∧
    (cyclerStep s env).stopped = env.dwellCancelled ∧
    (cyclerStep s env).next = (s.next + 1) % s.display.Tabs.length := by
  obtain ⟨h1, h2, _, _, _, _⟩ := cyclerStep_running s env tab hrun htab
  refine ⟨tabIteration_activations _ _ _ _ _, ?_, tabIteration_last_event _ _ _ _ _, ?_, h1, h2⟩
  · simp only [tabIteration, dwellStep, afterLoadStep, activateStep, beforeLoadStep,
      intervalStep, refreshInto]
    split_ifs <;> simp [(refreshTabAndWait_frame _ _ _).1]
  · unfold cyclerStep
    simp only [hrun, Bool.false_eq_true, if_false, htab]

/-- Instance of C8: the activate request for the first tab fails. -/
theorem activate_once_nonfatal_witness :
    activations (tabIteration sampleDisplay.DebugPort 0 (sampleTab "A" false false 0 "ws://a")
      ⟨1⟩ activateFailsEnv).events = [(0, sampleDisplay.DebugPort, "A")] ∧
    Event.activate 0 sampleDisplay.DebugPort "A" (some "connection refused") ∈
      (tabIteration sampleDisplay.DebugPort 0 (sampleTab "A" false false 0 "ws://a")
        ⟨1⟩ activateFailsEnv).events ∧
    (tabIteration sampleDisplay.DebugPort 0 (sampleTab "A" false false 0 "ws://a")
      ⟨1⟩ activateFailsEnv).events.getLast? = some (Event.dwell 0 (wrap64 (1 * second))) ∧
    (cyclerStep ⟨sampleDisplay, ⟨1⟩, 0, false, []⟩ activateFailsEnv).trace =
      [] ++ (tabIteration sampleDisplay.DebugPort 0 (sampleTab "A" false false 0 "ws://a")
        ⟨1⟩ activateFailsEnv).events ∧
    (cyclerStep ⟨sampleDisplay, ⟨1⟩, 0, false, []⟩ activateFailsEnv).stopped = false ∧
    (cyclerStep ⟨sampleDisplay, ⟨1⟩, 0, false, []⟩ activateFailsEnv).next = (0 + 1) % 2 :=
  activate_once_nonfatal ⟨sampleDisplay, ⟨1⟩, 0, false, []⟩ activateFailsEnv
    (sampleTab "A" false false 0 "ws://a") rfl rfl

/-! ## Request ids: claim C9 -/

theorem wrap64_wrap64_add (a b : Int) : wrap64 (wrap64 a + b) = wrap64 (a + b) := by
  unfold wrap64
  omega

/-- The counter after `n` calls. -/
theorem callN_counter (n : Nat) (r : RequestID) (hlo : -9223372036854775808 ≤ r.id)
    (hhi : r.id ≤ 9223372036854775807) :
    (RequestID.callN n r).2 = { id := wrap64 (r.id + n) } := by
  induction n generalizing r with
  | zero =>
    simp only [RequestID.callN, Nat.cast_zero, Int.add_zero]
    rw [wrap64_of_range _ hlo hhi]
  | succ n ih =>
    have h1 : -9223372036854775808 ≤ wrap64 (r.id + 1) := by unfold wrap64; omega
    have h2 : wrap64 (r.id + 1) ≤ 9223372036854775807 := by unfold wrap64; omega
    simp only [RequestID.callN, RequestID.Next]
    rw [ih { id := wrap64 (r.id + 1) } h1 h2]
    simp only [wrap64_wrap64_add, Nat.cast_add, Nat.cast_one]
    congr 2
    omega

/-- The values returned by `n` calls that stay below the wrap. -/
theorem callN_values (n : Nat) (r : RequestID) (hlo : -9223372036854775808 ≤ r.id)
    (hhi : r.id + n ≤ 9223372036854775808) :
    (RequestID.callN n r).1 = (List.range n).map (fun (j : Nat) => r.id + (j : Int)) := by
  induction n generalizing r with
  | zero => simp [RequestID.callN]
  | succ n ih =>
    simp only [RequestID.callN, RequestID.Next, List.range_succ_eq_map, List.map_cons,
      List.map_map, Nat.cast_zero, Int.add_zero]
    congr 1
    cases n with
    | zero => simp [RequestID.callN]
    | succ m =>
      have hr : wrap64 (r.id + 1) = r.id + 1 := by
        apply wrap64_of_range
        · omega
        · push_cast at hhi
          omega
      rw [ih { id := wrap64 (r.id + 1) } (by simp only [hr]; omega)
        (by simp only [hr]; push_cast at hhi ⊢; omega)]
      apply List.map_congr_left
      intro j _
      simp only [hr, Function.comp, Nat.succ_eq_add_one, Nat.cast_add, Nat.cast_one]
      omega

/-- C9, amended: for a counter holding a 64-bit value `c` and `n` successive
calls of `Next` with `c + n <= 2^63` (from the fresh counter of `NewKiosk`,
up to `2^63 - 1` calls), the call number `j` returns `c + j`; the values
returned are strictly increasing, pairwise distinct, and each is one greater
than the one before. -/
theorem requestID_next_increasing (r : RequestID) (n : Nat)
    (hlo : -9223372036854775808 ≤ r.id) (hhi : r.id + n ≤ 9223372036854775808) :
    (RequestID.callN n r).1.length = n ∧
    (∀ j : Nat, j < n → (RequestID.callN n r).1[j]? = some (r.id + (j : Int))) ∧
    List.Pairwise (fun a b => a < b) (RequestID.callN n r).1 ∧
    (RequestID.callN n r).1.Nodup ∧
    (∀ (j : Nat) (v w : Int), (RequestID.callN n r).1[j]? = some v → (RequestID.callN n r).1[j + 1]? = some w →
      w = v + 1) := by
  have hget : ∀ j : Nat, j < n → (RequestID.callN n r).1[j]? = some (r.id + (j : Int)) := by
    intro j hj
    rw [callN_values n r hlo hhi, List.getElem?_map, List.getElem?_range hj]
    rfl
  have hlen : (RequestID.callN n r).1.length = n := by
    rw [callN_values n r hlo hhi]
    simp
  have hpair : List.Pairwise (fun a b => a < b) (RequestID.callN n r).1 := by
    rw [callN_values n r hlo hhi, List.pairwise_map]
    have hr : List.Pairwise (fun a b => a < b) (List.range n) := List.pairwise_lt_range n
    exact hr.imp (fun {a b} hab => by omega)
  refine ⟨hlen, hget, hpair, ?_, ?_⟩
  · exact hpair.imp (fun {a b} hab => by omega)
  · intro j v w hv hw
    have hj1 : j + 1 < n := by
      rcases Nat.lt_or_ge (j + 1) n with h | h
      · exact h
      · rw [List.getElem?_eq_none (by omega)] at hw
        cases hw
    rw [hget j (by omega)] at hv
    rw [hget (j + 1) hj1] at hw
    cases hv
    cases hw
    push_cast
    omega

/-- Instance of C9 (amended): five calls on the fresh counter. -/
theorem requestID_next_increasing_witness :
    (RequestID.callN 5 NewKiosk.requestID).1.length = 5 ∧
    (∀ j : Nat, j < 5 → (RequestID.callN 5 NewKiosk.requestID).1[j]? =
      some (NewKiosk.requestID.id + (j : Int))) ∧
    List.Pairwise (fun a b => a < b) (RequestID.callN 5 NewKiosk.requestID).1 ∧
    (RequestID.callN 5 NewKiosk.requestID).1.Nodup ∧
    (∀ (j : Nat) (v w : Int), (RequestID.callN 5 NewKiosk.requestID).1[j]? = some v →
      (RequestID.callN 5 NewKiosk.requestID).1[j + 1]? = some w → w = v + 1) :=
  requestID_next_increasing NewKiosk.requestID 5 (by decide) (by decide)

/-- C9 as stated fails: `2^63 - 2` calls on the fresh counter leave it at
`2^63 - 1`, and the next two calls return `2^63 - 1` and then `-2^63`. -/
theorem requestID_wraps :
    (RequestID.callN 9223372036854775806 NewKiosk.requestID).2 =
      { id := 9223372036854775807 } ∧
    (RequestID.callN 2 { id := 9223372036854775807 }).1 =
      [9223372036854775807, -9223372036854775808] ∧
    ¬ List.Pairwise (fun a b => a < b) (RequestID.callN 2 { id := 9223372036854775807 }).1 := by
  refine ⟨?_, by decide, by decide⟩
  rw [callN_counter _ _ (by decide) (by decide)]
  decide

/-! ## Shutdown: claim C10 -/

/-- C10: `Stop` is idempotent.  A second call right after the first leaves the
state as the first call left it and takes no action (it finds the cancel
function cleared, so it neither cancels nor waits), and no call of `Stop`
closes a window. -/
theorem stop_idempotent (k : Kiosk) :
    (k.Stop.1).Stop.1 = k.Stop.1 ∧
    (k.Stop.1).Stop.2 = [] ∧
    (k.Stop.1).cancel = false ∧
    (∀ a ∈ k.Stop.2, ∀ name id, a ≠ Action.closeWindow name id) ∧
    (∀ a ∈ (k.Stop.1).Stop.2, ∀ name id, a ≠ Action.closeWindow name id) := by
  unfold Kiosk.Stop
  by_cases h : k.cancel = true
  · simp [h]
  · simp [h]

/-- The two calls on a running orchestrator with three outstanding tasks. -/
theorem stop_twice_example :
    ({ sampleKiosk with wg := 3 } : Kiosk).Stop =
      ({ sampleKiosk with wg := 0, ctxDone := true, cancel := false },
        [Action.cancel, Action.wait]) ∧
    (({ sampleKiosk with wg := 3 } : Kiosk).Stop.1).Stop =
      ({ sampleKiosk with wg := 0, ctxDone := true, cancel := false }, []) := by
  refine ⟨rfl, rfl⟩

/-! ## Display launcher: lemmas -/

theorem idExists_iff (id : String) (tabs : List TabState) :
    idExists id tabs = true ↔ id ≠ "" ∧ ∃ t ∈ tabs, t.ID = id := by
  induction tabs with
  | nil => simp [idExists]
  | cons t rest ih =>
    by_cases h : t.ID ≠ "" ∧ t.ID = id
    · have h1 : idExists id (t :: rest) = true := by
        unfold idExists
        rw [if_pos h]
      rw [h1]
      simp only [true_iff]
      exact ⟨h.2 ▸ h.1, t, List.mem_cons_self _ _, h.2⟩
    · simp only [idExists, h, if_false, ih, List.mem_cons, exists_eq_or_imp]
      constructor
      · rintro ⟨hne, hex⟩
        exact ⟨hne, Or.inr hex⟩
      · rintro ⟨hne, h1 | h1⟩
        · exact absurd ⟨h1 ▸ hne, h1⟩ h
        · exact ⟨hne, h1⟩

theorem qualifies_iff (tabs : List TabState) (c : ChromeTarget) :
    qualifies tabs c = true ↔
      ∃ id wsURL, c.id = some id ∧ c.webSocketDebuggerUrl = some wsURL ∧
        ¬ (id ≠ "" ∧ ∃ t ∈ tabs, t.ID = id) := by
  unfold qualifies
  cases hid : c.id with
  | none => simp
  | some id =>
    cases hws : c.webSocketDebuggerUrl with
    | none => simp
    | some ws =>
      simp only [Bool.not_eq_true_eq_eq_false, Option.some.injEq, exists_and_left, exists_eq',
        true_and, exists_eq_left']
      rw [← idExists_iff]
      simp

theorem pickTarget_cons (tabs : List TabState) (c : ChromeTarget) (rest : List ChromeTarget) :
    pickTarget tabs (c :: rest) =
      if qualifies tabs c = true then
        (match c.id, c.webSocketDebuggerUrl with
          | some id, some wsURL => some (id, wsURL)
          | _, _ => none)
      else pickTarget tabs rest := by
  unfold qualifies
  cases hid : c.id with
  | none => simp [pickTarget, hid]
  | some id =>
    cases hws : c.webSocketDebuggerUrl with
    | none => simp [pickTarget, hid, hws]
    | some ws =>
      by_cases he : idExists id tabs = true
      · simp [pickTarget, hid, hws, he]
      · simp [pickTarget, hid, hws, he]

theorem pickTarget_eq_none (tabs : List TabState) (cs : List ChromeTarget) :
    pickTarget tabs cs = none ↔ ∀ c ∈ cs, qualifies tabs c = false := by
  induction cs with
  | nil => simp [pickTarget]
  | cons c rest ih =>
    rw [pickTarget_cons]
    by_cases hq : qualifies tabs c = true
    · rw [if_pos hq]
      obtain ⟨id, ws, h1, h2, _⟩ := (qualifies_iff tabs c).mp hq
      simp [h1, h2, hq]
    · rw [if_neg hq, ih]
      simp only [Bool.not_eq_true] at hq
      simp [hq]

theorem pickTarget_eq_some (tabs : List TabState) (cs : List ChromeTarget) (id wsURL : String)
    (h : pickTarget tabs cs = some (id, wsURL)) :
    ∃ pre target post, cs = pre ++ target :: post ∧
      (∀ x ∈ pre, qualifies tabs x = false) ∧ qualifies tabs target = true ∧
      target.id = some id ∧ target.webSocketDebuggerUrl = some wsURL := by
  induction cs with
  | nil => simp [pickTarget] at h
  | cons c rest ih =>
    rw [pickTarget_cons] at h
    by_cases hq : qualifies tabs c = true
    · rw [if_pos hq] at h
      obtain ⟨i, w, h1, h2, _⟩ := (qualifies_iff tabs c).mp hq
      rw [h1, h2] at h
      simp only [Option.some.injEq, Prod.mk.injEq] at h
      refine ⟨[], c, rest, rfl, by simp, hq, ?_, ?_⟩
      · rw [h1, h.1]
      · rw [h2, h.2]
    · rw [if_neg hq] at h
      obtain ⟨pre, target, post, hsplit, hpre, htq, hti, htw⟩ := ih h
      refine ⟨c :: pre, target, post, by rw [hsplit]; rfl, ?_, htq, hti, htw⟩
      intro x hx
      rcases List.mem_cons.mp hx with hx | hx
      · rw [hx]
        simpa using hq
      · exact hpre x hx

/-- One turn of `waitForTabID` on a non-empty target list. -/
theorem waitForTabID_cons_ok (window : DisplayState) (tabIndex : Nat)
    (chromeTabs : List ChromeTarget) (c : Bool) (rest : List TabPoll) (hne : chromeTabs ≠ []) :
    waitForTabID window tabIndex (⟨Except.ok chromeTabs, c⟩ :: rest) =
      match pickTarget window.Tabs chromeTabs with
      | some (id, wsURL) =>
        (match bindTab window tabIndex id wsURL with
          | some w => WaitResult.bound w rest
          | none => WaitResult.panicked)
      | none => if c = true then WaitResult.cancelled else waitForTabID window tabIndex rest := by
  have hlen : ¬ chromeTabs.length = 0 := by
    intro h0
    exact hne (List.length_eq_zero.mp h0)
  conv_lhs => unfold waitForTabID
  simp only [hlen, if_false]

/-! ## Display launcher: claim C17 -/

/-- C17: on a non-empty target list one pass of `waitForTabID` (for a tab
index within the display) binds the first target in list order that has a
string id and a string websocket address and whose id is no non-empty `ID`
held by a tab of the display: it returns, having written that id and address
to the tab at `tabIndex` and nothing else (every other tab, the window id,
the configuration and the port are as before).  When no target qualifies the
display is not written and the function polls again (or returns the
context's error when cancelled during the wait). -/
theorem waitForTabID_one_pass (window : DisplayState) (tabIndex : Nat)
    (chromeTabs : List ChromeTarget) (c : Bool) (rest : List TabPoll)
    (hne : chromeTabs ≠ []) (hidx : tabIndex < window.Tabs.length) :
    ((∃ x ∈ chromeTabs, qualifies window.Tabs x = true) →
      ∃ pre target post id wsURL t w, chromeTabs = pre ++ target :: post ∧
        (∀ x ∈ pre, qualifies window.Tabs x = false) ∧
        qualifies window.Tabs target = true ∧
        target.id = some id ∧ target.webSocketDebuggerUrl = some wsURL ∧
        waitForTabID window tabIndex (⟨Except.ok chromeTabs, c⟩ :: rest) =
          WaitResult.bound w rest ∧
        window.Tabs[tabIndex]? = some t ∧
        w.Tabs[tabIndex]? = some { t with ID := id, WSURL := wsURL } ∧
        (∀ j, j ≠ tabIndex → w.Tabs[j]? = window.Tabs[j]?) ∧
        w.Tabs.length = window.Tabs.length ∧
        w.WindowID = window.WindowID ∧ w.Config = window.Config ∧
        w.DebugPort = window.DebugPort) ∧
    ((∀ x ∈ chromeTabs, qualifies window.Tabs x = false) →
      waitForTabID window tabIndex (⟨Except.ok chromeTabs, c⟩ :: rest) =
        if c = true then WaitResult.cancelled else waitForTabID window tabIndex rest) := by
  rw [waitForTabID_cons_ok window tabIndex chromeTabs c rest hne]
  constructor
  · rintro ⟨x, hx, hxq⟩
    cases hp : pickTarget window.Tabs chromeTabs with
    | none =>
      have := (pickTarget_eq_none window.Tabs chromeTabs).mp hp x hx
      rw [this] at hxq
      cases hxq
    | some pr =>
      obtain ⟨id, wsURL⟩ := pr
      obtain ⟨pre, target, post, hsplit, hpre, htq, hti, htw⟩ :=
        pickTarget_eq_some window.Tabs chromeTabs id wsURL hp
      obtain ⟨t, ht⟩ : ∃ t, window.Tabs[tabIndex]? = some t :=
        ⟨window.Tabs[tabIndex], List.getElem?_eq_getElem hidx⟩
      refine ⟨pre, target, post, id, wsURL, t,
        { window with Tabs := window.Tabs.set tabIndex { t with ID := id, WSURL := wsURL } },
        hsplit, hpre, htq, hti, htw, ?_, ht, ?_, ?_, ?_, rfl, rfl, rfl⟩
      · simp only [bindTab, ht]
      · simp [hidx]
      · intro j hj
        simp [List.getElem?_set_ne (Ne.symm hj)]
      · simp
  · intro hall
    have hp := (pickTarget_eq_none window.Tabs chromeTabs).mpr hall
    rw [hp]
/-- Instance of C17: tab 0 holds `T1`, tab 1 is bound to `T2`. -/
theorem waitForTabID_one_pass_witness :
    ((∃ x ∈ sampleTargets, qualifies halfBoundDisplay.Tabs x = true) →
      ∃ pre target post id wsURL t w, sampleTargets = pre ++ target :: post ∧
        (∀ x ∈ pre, qualifies halfBoundDisplay.Tabs x = false) ∧
        qualifies halfBoundDisplay.Tabs target = true ∧
        target.id = some id ∧ target.webSocketDebuggerUrl = some wsURL ∧
        waitForTabID halfBoundDisplay 1 (⟨Except.ok sampleTargets, false⟩ :: []) =
          WaitResult.bound w [] ∧
        halfBoundDisplay.Tabs[1]? = some t ∧
        w.Tabs[1]? = some { t with ID := id, WSURL := wsURL } ∧
        (∀ j, j ≠ 1 → w.Tabs[j]? = halfBoundDisplay.Tabs[j]?) ∧
        w.Tabs.length = halfBoundDisplay.Tabs.length ∧
        w.WindowID = halfBoundDisplay.WindowID ∧ w.Config = halfBoundDisplay.Config ∧
        w.DebugPort = halfBoundDisplay.DebugPort) ∧
    ((∀ x ∈ sampleTargets, qualifies halfBoundDisplay.Tabs x = false) →
      waitForTabID halfBoundDisplay 1 (⟨Except.ok sampleTargets, false⟩ :: []) =
        if false = true then WaitResult.cancelled else waitForTabID halfBoundDisplay 1 []) :=
  waitForTabID_one_pass halfBoundDisplay 1 sampleTargets false [] (by decide) (by decide)

/-- The pass of the instance above, evaluated: the entry without an id and the
target already held by tab 0 are passed over. -/
theorem waitForTabID_example :
    pickTarget halfBoundDisplay.Tabs sampleTargets = some ("T2", "ws://2") ∧
    (bindTab halfBoundDisplay 1 "T2" "ws://2").map (fun w => w.Tabs.map TabState.ID) =
      some ["T1", "T2"] := by
  refine ⟨by decide, by decide⟩

/-! ## Display launcher: claim C11 -/

/-- A call of `waitForTabID` that returns `nil` has written to the tab at the
index an id that no tab held as a non-empty `ID`, taken from a target of one
of the polls, and has left the polls it did not need. -/
theorem waitForTabID_bound (window : DisplayState) (i : Nat) (polls : List TabPoll)
    (w : DisplayState) (rest : List TabPoll)
    (h : waitForTabID window i polls = WaitResult.bound w rest) :
    ∃ id wsURL t, window.Tabs[i]? = some t ∧ idExists id window.Tabs = false ∧
      w = { window with Tabs := window.Tabs.set i { t with ID := id, WSURL := wsURL } } ∧
      (∃ p ∈ polls, ∃ cs, p.fetched = Except.ok cs ∧ ∃ c ∈ cs, c.id = some id) ∧
      (∃ used, polls = used ++ rest) := by
  induction polls with
  | nil => simp [waitForTabID] at h
  | cons p ps ih =>
    have hrec : waitForTabID window i ps = WaitResult.bound w rest →
        ∃ id wsURL t, window.Tabs[i]? = some t ∧ idExists id window.Tabs = false ∧
          w = { window with Tabs := window.Tabs.set i { t with ID := id, WSURL := wsURL } } ∧
          (∃ q ∈ p :: ps, ∃ cs, q.fetched = Except.ok cs ∧ ∃ c ∈ cs, c.id = some id) ∧
          (∃ used, p :: ps = used ++ rest) := by
      intro h2
      obtain ⟨id, ws, t, h3, h4, h5, ⟨q, hq, cs, hcs, c, hc, hcid⟩, ⟨used, hused⟩⟩ := ih h2
      exact ⟨id, ws, t, h3, h4, h5, ⟨q, List.mem_cons_of_mem _ hq, cs, hcs, c, hc, hcid⟩,
        ⟨p :: used, by rw [hused]; rfl⟩⟩
    unfold waitForTabID at h
    cases hf : p.fetched with
    | error e =>
      rw [hf] at h
      simp only at h
      by_cases hc : p.cancelled = true
      · rw [if_pos hc] at h
        cases h
      · rw [if_neg hc] at h
        exact hrec h
    | ok chromeTabs =>
      rw [hf] at h
      simp only at h
      by_cases hlen : chromeTabs.length = 0
      · rw [if_pos hlen] at h
        by_cases hc : p.cancelled = true
        · rw [if_pos hc] at h
          cases h
        · rw [if_neg hc] at h
          exact hrec h
      · rw [if_neg hlen] at h
        cases hp : pickTarget window.Tabs chromeTabs with
        | none =>
          rw [hp] at h
          simp only at h
          by_cases hc : p.cancelled = true
          · rw [if_pos hc] at h
            cases h
          · rw [if_neg hc] at h
            exact hrec h
        | some pr =>
          obtain ⟨id, ws⟩ := pr
          rw [hp] at h
          simp only at h
          obtain ⟨pre, target, post, hsplit, _, htq, hti, _⟩ :=
            pickTarget_eq_some window.Tabs chromeTabs id ws hp
          have hex : idExists id window.Tabs = false := by
            obtain ⟨id2, ws2, h1, _, h3⟩ := (qualifies_iff window.Tabs target).mp htq
            rw [hti] at h1
            cases h1
            cases he : idExists id window.Tabs with
            | false => rfl
            | true => exact absurd ((idExists_iff id window.Tabs).mp he) h3
          unfold bindTab at h
          cases ht : window.Tabs[i]? with
          | none =>
            rw [ht] at h
            cases h
          | some t =>
            rw [ht] at h
            simp only [WaitResult.bound.injEq] at h
            refine ⟨id, ws, t, rfl, hex, h.1.symm, ⟨p, List.mem_cons_self _ _, chromeTabs, hf,
              target, ?_, hti⟩, ⟨[p], by rw [← h.2]; rfl⟩⟩
            rw [hsplit]
            simp

/-- The binding loop keeps what it has bound apart: over the indices done so
far, two different tabs with the same `ID` hold the empty one; and when no
reported id is empty, none of them holds the empty one. -/
theorem bindTabs_invariant (port : Int) (todo : List Nat) (window : DisplayState)
    (polls : List TabPoll) (events : List LaunchEvent) (done : List Nat)
    (w2 : DisplayState) (ev2 : List LaunchEvent)
    (hinv : ∀ a ∈ done, ∀ b ∈ done, a ≠ b → ∀ x,
      (window.Tabs[a]?).map TabState.ID = some x → (window.Tabs[b]?).map TabState.ID = some x →
      x = "")
    (hdone : ∀ a ∈ done, a < window.Tabs.length)
    (h : bindTabs port todo window polls events = LaunchResult.done w2 ev2) :
    w2.Tabs.length = window.Tabs.length ∧
    (∀ a ∈ todo ++ done, a < w2.Tabs.length) ∧
    (∀ a ∈ todo ++ done, ∀ b ∈ todo ++ done, a ≠ b → ∀ x,
      (w2.Tabs[a]?).map TabState.ID = some x → (w2.Tabs[b]?).map TabState.ID = some x → x = "") ∧
    ((∀ p ∈ polls, ∀ cs, p.fetched = Except.ok cs → ∀ c ∈ cs, c.id ≠ some "") →
      (∀ a ∈ done, ∀ t, window.Tabs[a]? = some t → t.ID ≠ "") →
      ∀ a ∈ todo ++ done, ∀ t, w2.Tabs[a]? = some t → t.ID ≠ "") := by
  induction todo generalizing window polls events done with
  | nil =>
    simp only [bindTabs, LaunchResult.done.injEq] at h
    rw [← h.1]
    refine ⟨rfl, ?_, ?_, ?_⟩
    · simpa using hdone
    · simpa using hinv
    · intro _ hne
      simpa using hne
  | cons i rest ih =>
    unfold bindTabs at h
    split at h
    · cases h
    · rename_i ev hev
      cases hw : waitForTabID window i polls with
      | cancelled => rw [hw] at h; cases h
      | panicked => rw [hw] at h; cases h
      | polling => rw [hw] at h; cases h
      | bound w r =>
        rw [hw] at h
        simp only at h
        obtain ⟨id, ws, t, ht, hex, hweq, ⟨p, hp, cs, hcs, c, hc, hcid⟩, ⟨used, hused⟩⟩ :=
          waitForTabID_bound window i polls w r hw
        have hi : i < window.Tabs.length := by
          rcases Nat.lt_or_ge i window.Tabs.length with h1 | h1
          · exact h1
          · rw [List.getElem?_eq_none h1] at ht
            cases ht
        have hwt : w.Tabs = window.Tabs.set i { t with ID := id, WSURL := ws } := by rw [hweq]
        have hwl : w.Tabs.length = window.Tabs.length := by rw [hwt]; simp
        have hwi : (w.Tabs[i]?).map TabState.ID = some id := by
          rw [hwt]
          simp [hi]
        have hwo : ∀ a : Nat, a ≠ i → w.Tabs[a]? = window.Tabs[a]? := by
          intro a ha
          rw [hwt, List.getElem?_set_ne (Ne.symm ha)]
        have hfresh : ∀ (a : Nat) (x : String), (window.Tabs[a]?).map TabState.ID = some x → x = id → x = "" := by
          intro a x hx hxid
          by_contra hne
          have : idExists id window.Tabs = true := by
            rw [idExists_iff]
            refine ⟨hxid ▸ hne, ?_⟩
            cases hta : window.Tabs[a]? with
            | none => rw [hta] at hx; cases hx
            | some ta =>
              rw [hta] at hx
              simp only [Option.map_some', Option.some.injEq] at hx
              exact ⟨ta, List.mem_iff_getElem?.mpr ⟨a, hta⟩, hx.trans hxid⟩
          rw [hex] at this
          cases this
        have hinv2 : ∀ a ∈ i :: done, ∀ b ∈ i :: done, a ≠ b → ∀ x,
            (w.Tabs[a]?).map TabState.ID = some x → (w.Tabs[b]?).map TabState.ID = some x →
            x = "" := by
          intro a ha b hb hab x hxa hxb
          by_cases hai : a = i
          · have hbi : b ≠ i := fun hbi => hab (hai.trans hbi.symm)
            rw [hai, hwi] at hxa
            rw [hwo b hbi] at hxb
            cases hxa
            exact hfresh b _ hxb rfl
          · by_cases hbi : b = i
            · rw [hbi, hwi] at hxb
              rw [hwo a hai] at hxa
              cases hxb
              exact hfresh a _ hxa rfl
            · rw [hwo a hai] at hxa
              rw [hwo b hbi] at hxb
              have ha2 : a ∈ done := by
                rcases List.mem_cons.mp ha with h1 | h1
                · exact absurd h1 hai
                · exact h1
              have hb2 : b ∈ done := by
                rcases List.mem_cons.mp hb with h1 | h1
                · exact absurd h1 hbi
                · exact h1
              exact hinv a ha2 b hb2 hab x hxa hxb
        have hdone2 : ∀ a ∈ i :: done, a < w.Tabs.length := by
          intro a ha
          rw [hwl]
          rcases List.mem_cons.mp ha with h1 | h1
          · rw [h1]; exact hi
          · exact hdone a h1
        obtain ⟨r1, r2, r3, r4⟩ := ih w r _ (i :: done) hinv2 hdone2 h
        have hmem : ∀ a, a ∈ i :: rest ++ done → a ∈ rest ++ i :: done := by
          intro a ha
          simp only [List.cons_append, List.mem_cons, List.mem_append] at ha ⊢
          tauto
        refine ⟨r1.trans hwl, fun a ha => r2 a (hmem a ha),
          fun a ha b hb => r3 a (hmem a ha) b (hmem b hb), ?_⟩
        intro hids hne a ha
        apply r4 _ _ a (hmem a ha)
        · intro q hq
          apply hids q
          rw [hused]
          exact List.mem_append_right _ hq
        · intro a2 ha2 t2 ht2
          by_cases hai : a2 = i
          · rw [hai, hwt] at ht2
            simp only [List.getElem?_set_self hi, Option.some.injEq] at ht2
            rw [← ht2]
            intro hid0
            simp only at hid0
            apply hids p hp cs hcs c hc
            rw [hcid, hid0]
          · rw [hwo a2 hai] at ht2
            have ha3 : a2 ∈ done := by
              rcases List.mem_cons.mp ha2 with h1 | h1
              · exact absurd h1 hai
              · exact h1
            exact hne a2 ha3 t2 ht2

/-- C11, amended: when `launchChrome` returns, having bound the tabs of the
display in index order against whatever target lists the browser reported, two
different tabs that hold the same `ID` hold the empty one; and when no
reported target id is the empty string, every tab holds a non-empty `ID` and
no two tabs hold the same one. -/
theorem launchChrome_distinct_ids (k : Kiosk) (name : String) (env : LaunchEnv)
    (w : DisplayState) (ev : List LaunchEvent)
    (h : launchChrome k name env = LaunchResult.done w ev) :
    (∀ a b : Nat, a ≠ b → ∀ x, (w.Tabs[a]?).map TabState.ID = some x →
      (w.Tabs[b]?).map TabState.ID = some x → x = "") ∧
    ((∀ p ∈ env.tabPolls, ∀ cs, p.fetched = Except.ok cs → ∀ c ∈ cs, c.id ≠ some "") →
      (w.Tabs.map TabState.ID).Nodup ∧ ∀ t ∈ w.Tabs, t.ID ≠ "") := by
  unfold launchChrome at h
  split at h
  · cases h
  · rename_i window hlook
    split at h
    · cases h
    · split at h
      · cases h
      · rename_i tab0 htab0
        split at h
        · cases h
        · split at h
          · cases h
          · rename_i winID hwin
            have hpos : 0 < window.Tabs.length := by
              rcases Nat.lt_or_ge 0 window.Tabs.length with h1 | h1
              · exact h1
              · rw [List.getElem?_eq_none h1] at htab0
                cases htab0
            obtain ⟨r1, r2, r3, r4⟩ := bindTabs_invariant _ _ _ _ _ [] w ev
              (by simp) (by simp) h
            simp only [List.append_nil] at r2 r3 r4
            have hall : ∀ a, a < w.Tabs.length →
                a ∈ 0 :: List.range' 1 (window.Tabs.length - 1) := by
              intro a ha
              rw [r1] at ha
              simp only at ha
              rcases Nat.eq_zero_or_pos a with h0 | h0
              · rw [h0]
                exact List.mem_cons_self _ _
              · apply List.mem_cons_of_mem
                rw [List.mem_range'_1]
                omega
            have hlt : ∀ (a : Nat) (x : String),
                (w.Tabs[a]?).map TabState.ID = some x → a < w.Tabs.length := by
              intro a x hx
              rcases Nat.lt_or_ge a w.Tabs.length with h1 | h1
              · exact h1
              · rw [List.getElem?_eq_none h1] at hx
                cases hx
            have hweak : ∀ a b : Nat, a ≠ b → ∀ x, (w.Tabs[a]?).map TabState.ID = some x →
                (w.Tabs[b]?).map TabState.ID = some x → x = "" := by
              intro a b hab x hxa hxb
              exact r3 a (hall a (hlt a x hxa)) b (hall b (hlt b x hxb)) hab x hxa hxb
            refine ⟨hweak, ?_⟩
            intro hids
            have hne : ∀ t ∈ w.Tabs, t.ID ≠ "" := by
              intro t ht
              obtain ⟨a, ha⟩ := List.mem_iff_getElem?.mp ht
              have halt : a < w.Tabs.length := by
                rcases Nat.lt_or_ge a w.Tabs.length with h1 | h1
                · exact h1
                · rw [List.getElem?_eq_none h1] at ha
                  cases ha
              exact r4 hids (by simp) a (hall a halt) t ha
            refine ⟨?_, hne⟩
            rw [List.nodup_iff_getElem?_ne_getElem?]
            intro i j hij hj heq
            rw [List.length_map] at hj
            rw [List.getElem?_map, List.getElem?_map] at heq
            have hjs : w.Tabs[j]? = some w.Tabs[j] := List.getElem?_eq_getElem hj
            have hx : (w.Tabs[j]?).map TabState.ID = some (w.Tabs[j]).ID := by rw [hjs]; rfl
            have h0 := hweak i j (by omega) _ (heq.trans hx) hx
            exact hne _ (List.getElem_mem hj) h0

/-- Instance of C11 (amended): the browser reports `sampleTargets` twice; tab
0 is bound to `T1` and tab 1 to `T2`. -/
theorem launchChrome_distinct_ids_witness :
    (∀ a b : Nat, a ≠ b → ∀ x,
      (({ unboundDisplay with
          Tabs := [{ unboundTab "http://a" with ID := "T1", WSURL := "ws://1" },
                   { unboundTab "http://b" with ID := "T2", WSURL := "ws://2" }]
          WindowID := "2" } : DisplayState).Tabs[a]?).map TabState.ID = some x →
      (({ unboundDisplay with
          Tabs := [{ unboundTab "http://a" with ID := "T1", WSURL := "ws://1" },
                   { unboundTab "http://b" with ID := "T2", WSURL := "ws://2" }]
          WindowID := "2" } : DisplayState).Tabs[b]?).map TabState.ID = some x → x = "") ∧
    ((∀ p ∈ (launchEnv [⟨Except.ok sampleTargets, false⟩,
        ⟨Except.ok sampleTargets, false⟩]).tabPolls,
        ∀ cs, p.fetched = Except.ok cs → ∀ c ∈ cs, c.id ≠ some "") →
      ((({ unboundDisplay with
          Tabs := [{ unboundTab "http://a" with ID := "T1", WSURL := "ws://1" },
                   { unboundTab "http://b" with ID := "T2", WSURL := "ws://2" }]
          WindowID := "2" } : DisplayState).Tabs.map TabState.ID).Nodup ∧
        ∀ t ∈ ({ unboundDisplay with
          Tabs := [{ unboundTab "http://a" with ID := "T1", WSURL := "ws://1" },
                   { unboundTab "http://b" with ID := "T2", WSURL := "ws://2" }]
          WindowID := "2" } : DisplayState).Tabs, t.ID ≠ "")) :=
  launchChrome_distinct_ids launchKiosk "d"
    (launchEnv [⟨Except.ok sampleTargets, false⟩, ⟨Except.ok sampleTargets, false⟩])
    { unboundDisplay with
      Tabs := [{ unboundTab "http://a" with ID := "T1", WSURL := "ws://1" },
               { unboundTab "http://b" with ID := "T2", WSURL := "ws://2" }]
      WindowID := "2" }
    [LaunchEvent.portProbe 9222, LaunchEvent.startBrowser 9222 "http://a",
      LaunchEvent.waitForDebugger 9222, LaunchEvent.waitForTabID 9222 0,
      LaunchEvent.newTab "http://b", LaunchEvent.waitForTabID 9222 1]
    rfl

/-- C11 as stated fails: the browser reports one target whose id is the empty
string; `launchChrome` returns with both tabs bound to it. -/
theorem launchChrome_same_target_twice :
    ((launchChrome launchKiosk "d"
        (launchEnv [⟨Except.ok [⟨some "", some "ws://x"⟩], false⟩,
          ⟨Except.ok [⟨some "", some "ws://x"⟩], false⟩])).window?).map
      (fun w => w.Tabs.map (fun t => (t.ID, t.WSURL))) =
      some [("", "ws://x"), ("", "ws://x")] := by
  decide

/-! ## Tab cycler: claim C16 -/

/-- C16: `refreshTabAndWait` returns true exactly when the navigate command
was sent without error and the delay after the refresh was not cut short by
cancellation; it then leaves the tab as it was except for `LastRefresh`, which
holds the current time; when it returns false the tab is unchanged. -/
theorem refreshTabAndWait_lastRefresh (r : RequestID) (tab : TabState) (env : RefreshEnv) :
    ((refreshTabAndWait r tab env).ok = true ↔
      ((navigateChromeTab r tab env.sendErr).1 = none ∧
        ¬ (tab.cfg.DelayAfterRefresh > 0 ∧ env.delayCancelled = true))) ∧
    ((refreshTabAndWait r tab env).ok = true →
      (refreshTabAndWait r tab env).tab = { tab with LastRefresh := env.now }) ∧
    ((refreshTabAndWait r tab env).ok = false → (refreshTabAndWait r tab env).tab = tab) := by
  unfold refreshTabAndWait
  cases hnav : (navigateChromeTab r tab env.sendErr).1 with
  | some e => simp
  | none =>
    by_cases hd : tab.cfg.DelayAfterRefresh > 0 ∧ env.delayCancelled = true
    · simp [hd]
    · simp [hd]

/-- The three outcomes of `refreshTabAndWait` on a tab with a delay of five
seconds: sent and waited, send failed, cancelled during the delay. -/
theorem refreshTabAndWait_examples :
    (refreshTabAndWait ⟨1⟩
      { sampleTab "A" false false 0 "ws://a" with
        cfg := { (sampleTab "A" false false 0 "ws://a").cfg with DelayAfterRefresh := 5 } }
      ⟨none, false, 200⟩).tab.LastRefresh = 200 ∧
    (refreshTabAndWait ⟨1⟩
      { sampleTab "A" false false 0 "ws://a" with
        cfg := { (sampleTab "A" false false 0 "ws://a").cfg with DelayAfterRefresh := 5 } }
      ⟨some "connection refused", false, 200⟩).tab.LastRefresh = 100 ∧
    (refreshTabAndWait ⟨1⟩
      { sampleTab "A" false false 0 "ws://a" with
        cfg := { (sampleTab "A" false false 0 "ws://a").cfg with DelayAfterRefresh := 5 } }
      ⟨none, true, 200⟩).tab.LastRefresh = 100 := by
  refine ⟨by decide, by decide, by decide⟩

/-! ## Display launcher: claim C13 -/

theorem launchPorts_append (l1 l2 : List LaunchEvent) :
    launchPorts (l1 ++ l2) = launchPorts l1 ++ launchPorts l2 := by
  induction l1 with
  | nil => simp [launchPorts]
  | cons e rest ih => cases e <;> simp [launchPorts, ih]

/-- The binding loop passes on the port it was given. -/
theorem bindTabs_event_ports (port : Int) (todo : List Nat) (window : DisplayState)
    (polls : List TabPoll) (events : List LaunchEvent)
    (hev : ∀ p ∈ launchPorts events, p = port) :
    ∀ p ∈ launchPorts (bindTabs port todo window polls events).events, p = port := by
  induction todo generalizing window polls events with
  | nil => simpa [bindTabs, LaunchResult.events] using hev
  | cons i rest ih =>
    unfold bindTabs
    split
    · simpa [LaunchResult.events] using hev
    · rename_i ev1 hev1
      have hev2 : ∀ p ∈ launchPorts (ev1 ++ [LaunchEvent.waitForTabID port i]), p = port := by
        intro p hp
        rw [launchPorts_append] at hp
        rcases List.mem_append.mp hp with hp | hp
        · by_cases hi : i = 0
          · rw [if_pos hi] at hev1
            cases hev1
            exact hev p hp
          · rw [if_neg hi] at hev1
            cases hti : window.Tabs[i]? with
            | none => rw [hti] at hev1; cases hev1
            | some ti =>
              rw [hti] at hev1
              simp only [Option.map_some', Option.some.injEq] at hev1
              rw [← hev1, launchPorts_append] at hp
              simp only [launchPorts, List.append_nil] at hp
              exact hev p hp
        · simp only [launchPorts, List.mem_singleton] at hp
          exact hp
      cases hw : waitForTabID window i polls with
      | cancelled => simpa [LaunchResult.events] using hev2
      | panicked => simpa [LaunchResult.events] using hev2
      | polling => simpa [LaunchResult.events] using hev2
      | bound w1 r => exact ih w1 r _ hev2

/-- The binding loop does not write the port of the display. -/
theorem bindTabs_debugPort (port : Int) (todo : List Nat) (window : DisplayState)
    (polls : List TabPoll) (events : List LaunchEvent) (w : DisplayState)
    (ev : List LaunchEvent)
    (h : bindTabs port todo window polls events = LaunchResult.done w ev) :
    w.DebugPort = window.DebugPort := by
  induction todo generalizing window polls events with
  | nil =>
    simp only [bindTabs, LaunchResult.done.injEq] at h
    rw [← h.1]
  | cons i rest ih =>
    unfold bindTabs at h
    split at h
    · cases h
    · cases hw : waitForTabID window i polls with
      | cancelled => rw [hw] at h; cases h
      | panicked => rw [hw] at h; cases h
      | polling => rw [hw] at h; cases h
      | bound w1 r =>
        rw [hw] at h
        simp only at h
        obtain ⟨id, ws, t, _, _, hweq, _, _⟩ := waitForTabID_bound window i polls w1 r hw
        rw [ih w1 r _ h, hweq]

/-- Every port `launchChrome` passes on is the resolved one, and a launch that
returns leaves the `DebugPort` of the display as it found it. -/
theorem launchChrome_ports (k : Kiosk) (name : String) (env : LaunchEnv) (window : DisplayState)
    (hlook : k.windows.lookup name = some window) :
    (∀ p ∈ launchPorts (launchChrome k name env).events, p = resolvePort window k.cfg) ∧
    ∀ w ev, launchChrome k name env = LaunchResult.done w ev →
      w.DebugPort = window.DebugPort := by
  unfold launchChrome
  rw [hlook]
  simp only
  by_cases hpa : env.portAvailable = false
  · rw [if_pos hpa]
    simp [LaunchResult.events, launchPorts]
  · rw [if_neg hpa]
    cases ht0 : window.Tabs[0]? with
    | none => simp [LaunchResult.events, launchPorts]
    | some tab0 =>
      simp only
      cases hde : env.debuggerErr with
      | some e => simp [LaunchResult.events, launchPorts]
      | none =>
        simp only
        cases hfw : findWindowLoop k.windows name env.originalWinIDs env.windowPolls with
        | none => simp [LaunchResult.events, launchPorts]
        | some winID =>
          simp only
          have hev : ∀ p ∈ launchPorts
              [LaunchEvent.portProbe (resolvePort window k.cfg),
                LaunchEvent.startBrowser (resolvePort window k.cfg) tab0.cfg.URL,
                LaunchEvent.waitForDebugger (resolvePort window k.cfg)],
              p = resolvePort window k.cfg := by
            simp [launchPorts]
          refine ⟨bindTabs_event_ports _ _ _ _ _ hev, ?_⟩
          intro w ev hb
          exact bindTabs_debugPort _ _ { window with WindowID := winID } _ _ w ev hb

/-- C13 fails on the code: the display leaves its own `DebugPort` at zero and
the config-wide port is 9222.  `launchChrome` resolves the port to 9222 and
passes 9222 to the port probe, the browser, the debugger wait and both polls
for targets, but returns with the `DebugPort` of the display still zero, and
the tab cycler started on that display sends its activate request to port 0. -/
theorem debugPort_not_written_back :
    resolvePort unboundDisplay launchKiosk.cfg = 9222 ∧
    launchPorts (launchChrome launchKiosk "d"
      (launchEnv [⟨Except.ok sampleTargets, false⟩,
        ⟨Except.ok sampleTargets, false⟩])).events = [9222, 9222, 9222, 9222, 9222] ∧
    ((launchChrome launchKiosk "d"
      (launchEnv [⟨Except.ok sampleTargets, false⟩,
        ⟨Except.ok sampleTargets, false⟩])).window?).map DisplayState.DebugPort = some 0 ∧
    ((tabCycler (Kiosk.afterLaunch launchKiosk "d" (launchChrome launchKiosk "d"
      (launchEnv [⟨Except.ok sampleTargets, false⟩,
        ⟨Except.ok sampleTargets, false⟩]))) "d").2).map
      (fun s => activations (runCycler s [quietEnv 0]).trace) = some [(0, 0, "T1")] := by
  refine ⟨by decide, by decide, by decide, by decide⟩

/-! ## Configuration load: claim C14 -/

theorem newTabStates_spec (clock : Nat → Int) (tabs : List TabConfig) (j : Nat) :
    (newTabStates clock tabs j).map TabState.cfg = tabs ∧
    (newTabStates clock tabs j).length = tabs.length ∧
    ∀ t ∈ newTabStates clock tabs j, t.ID = "" ∧ t.WSURL = "" := by
  induction tabs generalizing j with
  | nil => simp [newTabStates]
  | cons tab rest ih =>
    obtain ⟨h1, h2, h3⟩ := ih (j + 1)
    refine ⟨by simp [newTabStates, newTabState, h1], by simp [newTabStates, h2], ?_⟩
    intro t ht
    simp only [newTabStates, List.mem_cons] at ht
    rcases ht with ht | ht
    · rw [ht]
      exact ⟨rfl, rfl⟩
    · exact h3 t ht

theorem lookup_none_iff_not_key (windows : Windows) (name : String) :
    windows.lookup name = none ↔ name ∉ windows.map Prod.fst := by
  rw [List.lookup_eq_none_iff]
  simp only [bne_iff_ne, ne_eq, List.mem_map, not_exists, not_and]
  constructor
  · intro h p hp heq
    exact h p hp heq.symm
  · intro h p hp heq
    exact h p hp heq.symm

/-- The loop of `loadConfig` keeps the keys of the map apart, adds a key for
every display name it meets, and stores under a name the fresh state of the
first display of that name. -/
theorem buildWindows_invariant (clock : Nat → Nat → Int) (rest : List DisplayConfig) (i : Nat)
    (pre : List DisplayConfig) (acc : Windows)
    (hnodup : (acc.map Prod.fst).Nodup)
    (hkeys : ∀ name, name ∈ acc.map Prod.fst ↔ ∃ d ∈ pre, d.Name = name)
    (hentries : ∀ p ∈ acc, ∃ d j, pre.find? (fun x => x.Name == p.1) = some d ∧
      p.2 = newDisplayState (clock j) d) :
    ((buildWindows clock rest i acc).map Prod.fst).Nodup ∧
    (∀ name, name ∈ (buildWindows clock rest i acc).map Prod.fst ↔
      ∃ d ∈ pre ++ rest, d.Name = name) ∧
    (∀ p ∈ buildWindows clock rest i acc, ∃ d j,
      (pre ++ rest).find? (fun x => x.Name == p.1) = some d ∧
      p.2 = newDisplayState (clock j) d) := by
  induction rest generalizing i pre acc with
  | nil =>
    simp only [buildWindows, List.append_nil]
    exact ⟨hnodup, hkeys, hentries⟩
  | cons display rest ih =>
    have happ : pre ++ display :: rest = (pre ++ [display]) ++ rest := by simp
    rw [happ]
    unfold buildWindows
    cases hl : acc.lookup display.Name with
    | some ds =>
      simp only
      have hkey : display.Name ∈ acc.map Prod.fst := by
        by_contra hn
        rw [(lookup_none_iff_not_key acc display.Name).mpr hn] at hl
        cases hl
      apply ih (i + 1) (pre ++ [display]) acc hnodup
      · intro name
        rw [hkeys name]
        constructor
        · rintro ⟨d, hd, hdn⟩
          exact ⟨d, List.mem_append_left _ hd, hdn⟩
        · rintro ⟨d, hd, hdn⟩
          rcases List.mem_append.mp hd with hd | hd
          · exact ⟨d, hd, hdn⟩
          · simp only [List.mem_singleton] at hd
            rw [hd] at hdn
            rw [← hdn]
            exact (hkeys display.Name).mp hkey
      · intro p hp
        obtain ⟨d, j, hfind, hp2⟩ := hentries p hp
        refine ⟨d, j, ?_, hp2⟩
        rw [List.find?_append, hfind]
        rfl
    | none =>
      simp only
      have hkey : display.Name ∉ acc.map Prod.fst :=
        (lookup_none_iff_not_key acc display.Name).mp hl
      apply ih (i + 1) (pre ++ [display])
        (acc ++ [(display.Name, newDisplayState (clock i) display)])
      · rw [List.map_append, List.nodup_append]
        refine ⟨hnodup, by simp, ?_⟩
        intro a ha hb
        simp only [List.map_cons, List.map_nil, List.mem_singleton] at hb
        rw [hb] at ha
        exact hkey ha
      · intro name
        simp only [List.map_append, List.map_cons, List.map_nil, List.mem_append,
          List.mem_singleton]
        rw [hkeys name]
        constructor
        · rintro (⟨d, hd, hdn⟩ | hn)
          · exact ⟨d, Or.inl hd, hdn⟩
          · exact ⟨display, Or.inr rfl, hn.symm⟩
        · rintro ⟨d, hd | hd, hdn⟩
          · exact Or.inl ⟨d, hd, hdn⟩
          · rw [hd] at hdn
            exact Or.inr hdn.symm
      · intro p hp
        rcases List.mem_append.mp hp with hp | hp
        · obtain ⟨d, j, hfind, hp2⟩ := hentries p hp
          refine ⟨d, j, ?_, hp2⟩
          rw [List.find?_append, hfind]
          rfl
        · simp only [List.mem_singleton] at hp
          rw [hp]
          refine ⟨display, i, ?_, rfl⟩
          have hnone : pre.find? (fun x => x.Name == display.Name) = none := by
            rw [List.find?_eq_none]
            intro x hx hxn
            apply hkey
            rw [hkeys display.Name]
            exact ⟨x, hx, by simpa using hxn⟩
          rw [List.find?_append, hnone]
          simp

/-- C14: `loadConfig` rebuilds the map wholesale.  For every previous state
and every configuration loaded the call succeeds; the new map does not
depend on the previous state; its keys are pairwise different and are exactly
the display names of the configuration; and the entry under a name is built
from the (first) display of that name: its `Config` is that display, its
`WindowID` is empty, its `DebugPort` is the display's, and it has one tab
state per configured tab, in config order, each with empty `ID` and empty
`WSURL`. -/
theorem loadConfig_rebuilds (k : Kiosk) (configFile : String) (cfg : Config)
    (clock : Nat → Nat → Int) :
    ∃ k2, k.loadConfig configFile (Except.ok cfg) clock = Except.ok k2 ∧
      k2.cfg = cfg ∧
      (∀ other : Kiosk, ∃ k3, other.loadConfig configFile (Except.ok cfg) clock = Except.ok k3 ∧
        k3.windows = k2.windows) ∧
      (k2.windows.map Prod.fst).Nodup ∧
      (∀ name, name ∈ k2.windows.map Prod.fst ↔ ∃ d ∈ cfg.Displays, d.Name = name) ∧
      (∀ name, (k2.windows.lookup name).isSome ↔ ∃ d ∈ cfg.Displays, d.Name = name) ∧
      (∀ p ∈ k2.windows,
        cfg.Displays.find? (fun d => d.Name == p.1) = some p.2.Config ∧
        p.2.Config.Name = p.1 ∧
        p.2.WindowID = "" ∧
        p.2.DebugPort = p.2.Config.DebugPort ∧
        p.2.Tabs.map TabState.cfg = p.2.Config.Tabs ∧
        p.2.Tabs.length = p.2.Config.Tabs.length ∧
        ∀ t ∈ p.2.Tabs, t.ID = "" ∧ t.WSURL = "") := by
  obtain ⟨h1, h2, h3⟩ := buildWindows_invariant clock cfg.Displays 0 [] []
    (by simp) (by simp) (by simp)
  simp only [List.nil_append] at h2 h3
  refine ⟨_, rfl, rfl, fun other => ⟨_, rfl, rfl⟩, h1, h2, ?_, ?_⟩
  · intro name
    rw [← h2 name]
    cases hl : (buildWindows clock cfg.Displays 0 []).lookup name with
    | none =>
      have := (lookup_none_iff_not_key _ name).mp hl
      simp only [Option.isSome_none, Bool.false_eq_true, false_iff]
      exact this
    | some ds =>
      simp only [Option.isSome_some, true_iff]
      by_contra hn
      rw [(lookup_none_iff_not_key _ name).mpr hn] at hl
      cases hl
  · intro p hp
    obtain ⟨d, j, hfind, hp2⟩ := h3 p hp
    obtain ⟨t1, t2, t3⟩ := newTabStates_spec (clock j) d.Tabs 0
    have hname : d.Name = p.1 := by
      have := List.find?_some hfind
      simpa using this
    rw [hp2]
    exact ⟨hfind, hname, rfl, rfl, t1, t2, t3⟩

/-- A reload over a running orchestrator: the entry `d` of the old map is
gone, and the duplicated name `x` is stored once, with the tabs of its first
display (none). -/
theorem loadConfig_example :
    (sampleKiosk.loadConfig "" (Except.ok sameNameConfig) (fun _ _ => 100)).toOption.map
      (fun k2 => (k2.cfgFilename, k2.windows.map (fun p => (p.1, p.2.Tabs.length)))) =
      some ("./kiosk.yml", [("x", 0)]) := by
  decide

/-! ## Run sequence: the calls per entry of `cfg.Displays` -/

theorem runCalls_subset (ctxErr : Nat → Bool) (plan : List (RunCall × Bool)) (n : Nat) :
    ∀ c ∈ (runCalls ctxErr plan n).1, c ∈ plan.map Prod.fst := by
  induction plan generalizing n with
  | nil => simp [runCalls]
  | cons p rest ih =>
    obtain ⟨call, checked⟩ := p
    intro c hc
    unfold runCalls at hc
    by_cases h : (checked && ctxErr (n + 1)) = true
    · rw [if_pos h] at hc
      simp only [List.mem_singleton] at hc
      simp [hc]
    · rw [if_neg h] at hc
      simp only [List.mem_cons] at hc
      rcases hc with hc | hc
      · simp [hc]
      · simp only [List.map_cons, List.mem_cons]
        exact Or.inr (ih (n + 1) c hc)

theorem runCalls_never_cancelled (ctxErr : Nat → Bool) (hno : ∀ n, ctxErr n = false)
    (plan : List (RunCall × Bool)) (n : Nat) :
    runCalls ctxErr plan n = (plan.map Prod.fst, false) := by
  induction plan generalizing n with
  | nil => simp [runCalls]
  | cons p rest ih =>
    obtain ⟨call, checked⟩ := p
    unfold runCalls
    simp [hno, ih]

/-- The launch and cycle calls of a plan, traced back to the displays. -/
theorem runPlan_dispatch (cfg : Config) (name : String) :
    (RunCall.launchCustom name ∈ (runPlan cfg).map Prod.fst →
      ∃ d ∈ cfg.Displays, d.Name = name ∧ d.Exec.Command ≠ "") ∧
    (RunCall.execCycle name ∈ (runPlan cfg).map Prod.fst →
      ∃ d ∈ cfg.Displays, d.Name = name ∧ d.Exec.Command ≠ "") ∧
    (RunCall.launchChrome name ∈ (runPlan cfg).map Prod.fst →
      ∃ d ∈ cfg.Displays, d.Name = name ∧ d.Exec.Command = "" ∧ d.Tabs ≠ []) ∧
    (RunCall.tabCycler name ∈ (runPlan cfg).map Prod.fst →
      ∃ d ∈ cfg.Displays, d.Name = name ∧ d.Exec.Command = "" ∧ d.Tabs ≠ []) := by
  have hstep : ∀ (d : DisplayConfig) (c : RunCall) (b : Bool),
      ((c, b) ∈ launchStep d ∨ (c, b) ∈ cycleStep d) →
      (c = RunCall.launchCustom d.Name ∧ d.Exec.Command ≠ "") ∨
      (c = RunCall.execCycle d.Name ∧ d.Exec.Command ≠ "") ∨
      (c = RunCall.launchChrome d.Name ∧ d.Exec.Command = "" ∧ d.Tabs ≠ []) ∨
      (c = RunCall.tabCycler d.Name ∧ d.Exec.Command = "" ∧ d.Tabs ≠ []) := by
    intro d c b h
    unfold launchStep cycleStep at h
    by_cases hc : d.Exec.Command = ""
    · by_cases ht : d.Tabs = []
      · simp [hc, ht] at h
      · have hl : ¬ d.Tabs.length = 0 := fun h0 => ht (List.length_eq_zero.mp h0)
        simp only [hc, ne_eq, not_true_eq_false, if_false, hl, List.mem_singleton,
          Prod.mk.injEq] at h
        rcases h with h | h
        · exact Or.inr (Or.inr (Or.inl ⟨h.1, hc, ht⟩))
        · exact Or.inr (Or.inr (Or.inr ⟨h.1, hc, ht⟩))
    · simp only [ne_eq, hc, not_false_eq_true, if_true, List.mem_singleton, Prod.mk.injEq] at h
      rcases h with h | h
      · exact Or.inl ⟨h.1, hc⟩
      · exact Or.inr (Or.inl ⟨h.1, hc⟩)
  have hmem : ∀ c : RunCall, c ∈ (runPlan cfg).map Prod.fst →
      (∀ n, c ≠ RunCall.moveWindow n) → (∀ n, c ≠ RunCall.sendFullscreen n) →
      (∀ n key delay, c ≠ RunCall.sendKey n key delay) →
      ∃ d ∈ cfg.Displays, ∃ b, (c, b) ∈ launchStep d ∨ (c, b) ∈ cycleStep d := by
    intro c hc hm hf hk
    simp only [runPlan, List.map_append, List.mem_append, List.mem_map, List.mem_flatMap,
      Prod.exists, exists_and_right, exists_eq_right] at hc
    rcases hc with ((⟨b, d, hd, h⟩ | ⟨b, d, hd, h⟩) | ⟨b, d, hd, h⟩) | ⟨b, d, hd, h⟩
    · exact ⟨d, hd, b, Or.inl h⟩
    · simp only [moveStep, List.mem_singleton, Prod.mk.injEq] at h
      exact absurd h.1 (hm _)
    · simp only [keysStep, List.mem_append, List.mem_map, List.mem_filter, Prod.mk.injEq] at h
      rcases h with h | ⟨key, _, h, _⟩
      · by_cases hfs : d.Fullscreen = true
        · simp only [hfs, if_true, List.mem_singleton, Prod.mk.injEq] at h
          exact absurd h.1 (hf _)
        · simp [hfs] at h
      · exact absurd h.symm (hk _ _ _)
    · exact ⟨d, hd, b, Or.inr h⟩
  refine ⟨?_, ?_, ?_, ?_⟩ <;> intro h
  · obtain ⟨d, hd, b, hs⟩ := hmem _ h (by simp) (by simp) (by simp)
    rcases hstep d _ b hs with h1 | h1 | h1 | h1
    · simp only [RunCall.launchCustom.injEq] at h1
      exact ⟨d, hd, h1.1.symm, h1.2⟩
    all_goals simp at h1
  · obtain ⟨d, hd, b, hs⟩ := hmem _ h (by simp) (by simp) (by simp)
    rcases hstep d _ b hs with h1 | h1 | h1 | h1
    · simp at h1
    · simp only [RunCall.execCycle.injEq] at h1
      exact ⟨d, hd, h1.1.symm, h1.2⟩
    all_goals simp at h1
  · obtain ⟨d, hd, b, hs⟩ := hmem _ h (by simp) (by simp) (by simp)
    rcases hstep d _ b hs with h1 | h1 | h1 | h1
    · simp at h1
    · simp at h1
    · simp only [RunCall.launchChrome.injEq] at h1
      exact ⟨d, hd, h1.1.symm, h1.2⟩
    · simp at h1
  · obtain ⟨d, hd, b, hs⟩ := hmem _ h (by simp) (by simp) (by simp)
    rcases hstep d _ b hs with h1 | h1 | h1 | h1
    · simp at h1
    · simp at h1
    · simp at h1
    · simp only [RunCall.tabCycler.injEq] at h1
      exact ⟨d, hd, h1.1.symm, h1.2⟩

/-- What `Run` does for each entry of `cfg.Displays`, taken by itself.  With a
non-empty `Exec.Command` the launch loop calls `launchCustom` and the cycle
loop `execCycle`, whatever tabs are configured; otherwise, with at least one
tab, they call `launchChrome` and `tabCycler`; otherwise they call nothing.
Every launch and cycle call `Run` makes (however the run is cut short) comes
from some entry of that name and kind, and a run that is not cut short makes
exactly the calls of the four loops, then waits, cancels (unless `Stop` did)
and closes the windows.  The calls carry the name only, so this says nothing
about two entries of one name. -/
theorem run_dispatch_per_entry (k : Kiosk) (ctxErr : Nat → Bool) (cancelCleared : Bool) :
    (∀ d ∈ k.cfg.Displays,
      (d.Exec.Command ≠ "" →
        launchStep d = [(RunCall.launchCustom d.Name, true)] ∧
        cycleStep d = [(RunCall.execCycle d.Name, false)]) ∧
      (d.Exec.Command = "" → d.Tabs ≠ [] →
        launchStep d = [(RunCall.launchChrome d.Name, true)] ∧
        cycleStep d = [(RunCall.tabCycler d.Name, true)]) ∧
      (d.Exec.Command = "" → d.Tabs = [] → launchStep d = [] ∧ cycleStep d = [])) ∧
    (∀ name,
      (RunCall.launchCustom name ∈ k.Run ctxErr cancelCleared →
        ∃ d ∈ k.cfg.Displays, d.Name = name ∧ d.Exec.Command ≠ "") ∧
      (RunCall.execCycle name ∈ k.Run ctxErr cancelCleared →
        ∃ d ∈ k.cfg.Displays, d.Name = name ∧ d.Exec.Command ≠ "") ∧
      (RunCall.launchChrome name ∈ k.Run ctxErr cancelCleared →
        ∃ d ∈ k.cfg.Displays, d.Name = name ∧ d.Exec.Command = "" ∧ d.Tabs ≠ []) ∧
      (RunCall.tabCycler name ∈ k.Run ctxErr cancelCleared →
        ∃ d ∈ k.cfg.Displays, d.Name = name ∧ d.Exec.Command = "" ∧ d.Tabs ≠ [])) ∧
    ((∀ n, ctxErr n = false) →
      k.Run ctxErr cancelCleared =
        (k.cfg.Displays.flatMap launchStep ++ k.cfg.Displays.flatMap moveStep ++
          k.cfg.Displays.flatMap keysStep ++ k.cfg.Displays.flatMap cycleStep).map Prod.fst ++
        (if cancelCleared = true then [RunCall.wait] else [RunCall.wait, RunCall.cancel]) ++
        k.cfg.Displays.map (fun display => RunCall.closeWindow display.Name)) := by
  refine ⟨?_, ?_, ?_⟩
  · intro d _
    refine ⟨?_, ?_, ?_⟩
    · intro hc
      simp [launchStep, cycleStep, hc]
    · intro hc ht
      have hl : ¬ d.Tabs.length = 0 := fun h0 => ht (List.length_eq_zero.mp h0)
      simp [launchStep, cycleStep, hc, hl]
    · intro hc ht
      simp [launchStep, cycleStep, hc, ht]
  · intro name
    have hin : ∀ c : RunCall, c ∈ k.Run ctxErr cancelCleared → c ≠ RunCall.wait → c ≠ RunCall.cancel →
        (∀ n, c ≠ RunCall.closeWindow n) → c ∈ (runPlan k.cfg).map Prod.fst := by
      intro c hc hw hcn hcl
      unfold Kiosk.Run at hc
      simp only [List.mem_append, List.mem_map] at hc
      rcases hc with (hc | hc) | ⟨d, _, hc⟩
      · exact runCalls_subset ctxErr _ 0 c hc
      · split at hc
        · cases hc
        · split at hc
          · simp only [List.mem_singleton] at hc
            exact absurd hc hw
          · simp only [List.mem_cons, List.mem_singleton, List.not_mem_nil, or_false] at hc
            rcases hc with hc | hc
            · exact absurd hc hw
            · exact absurd hc hcn
      · exact absurd hc.symm (hcl _)
    obtain ⟨h1, h2, h3, h4⟩ := runPlan_dispatch k.cfg name
    exact ⟨fun h => h1 (hin _ h (by simp) (by simp) (by simp)),
      fun h => h2 (hin _ h (by simp) (by simp) (by simp)),
      fun h => h3 (hin _ h (by simp) (by simp) (by simp)),
      fun h => h4 (hin _ h (by simp) (by simp) (by simp))⟩
  · intro hno
    unfold Kiosk.Run
    rw [runCalls_never_cancelled ctxErr hno]
    simp [runPlan]

/-- The run of `mixedConfig`, not cut short: the browser display is launched
through `launchChrome` and cycled by `tabCycler`, the command display (which
also lists a tab) through `launchCustom` and `execCycle`, the display with
neither is only moved and closed. -/
theorem run_example :
    ({ NewKiosk with cfg := mixedConfig } : Kiosk).Run (fun _ => false) false =
      [RunCall.launchChrome "web", RunCall.launchCustom "cam",
        RunCall.moveWindow "web", RunCall.moveWindow "cam", RunCall.moveWindow "idle",
        RunCall.sendFullscreen "web", RunCall.sendKey "cam" "f" 2000000000,
        RunCall.tabCycler "web", RunCall.execCycle "cam",
        RunCall.wait, RunCall.cancel,
        RunCall.closeWindow "web", RunCall.closeWindow "cam", RunCall.closeWindow "idle"] := by
  decide

/-! ## Run sequence: claim C18 -/

theorem run_calls_in_plan (k : Kiosk) (ctxErr : Nat → Bool) (cancelCleared : Bool)
    (c : RunCall)
    (hc : c ∈ k.Run ctxErr cancelCleared) (hw : c ≠ RunCall.wait) (hcn : c ≠ RunCall.cancel)
    (hcl : ∀ n, c ≠ RunCall.closeWindow n) : c ∈ (runPlan k.cfg).map Prod.fst := by
  unfold Kiosk.Run at hc
  simp only [List.mem_append, List.mem_map] at hc
  rcases hc with (hc | hc) | ⟨d, _, hc⟩
  · exact runCalls_subset ctxErr _ 0 c hc
  · split at hc
    · cases hc
    · split at hc
      · simp only [List.mem_singleton] at hc
        exact absurd hc hw
      · simp only [List.mem_cons, List.mem_singleton, List.not_mem_nil, or_false] at hc
        rcases hc with hc | hc
        · exact absurd hc hw
        · exact absurd hc hcn
  · exact absurd hc.symm (hcl _)

/-- With pairwise different display names, every `launchChrome` and
`tabCycler` call of `Run` after `loadConfig` finds a state with at least one
tab under the name. -/
theorem run_calls_have_tabs_of_unique_names (k : Kiosk) (configFile : String) (cfg : Config)
    (clock : Nat → Nat → Int) (ctxErr : Nat → Bool) (cancelCleared : Bool)
    (name : String) (hnodup : (cfg.Displays.map DisplayConfig.Name).Nodup) :
    ∃ k2, k.loadConfig configFile (Except.ok cfg) clock = Except.ok k2 ∧
      (RunCall.launchChrome name ∈ k2.Run ctxErr cancelCleared ∨ RunCall.tabCycler name ∈ k2.Run ctxErr cancelCleared →
        ∃ ds, k2.windows.lookup name = some ds ∧ 1 ≤ ds.Tabs.length) := by
  obtain ⟨_, h2, h3⟩ := buildWindows_invariant clock cfg.Displays 0 [] []
    (by simp) (by simp) (by simp)
  simp only [List.nil_append] at h2 h3
  refine ⟨_, rfl, ?_⟩
  intro hcall
  have hd : ∃ d ∈ cfg.Displays, d.Name = name ∧ d.Exec.Command = "" ∧ d.Tabs ≠ [] := by
    obtain ⟨_, _, p3, p4⟩ := runPlan_dispatch cfg name
    rcases hcall with h | h
    · exact p3 (run_calls_in_plan _ ctxErr cancelCleared _ h (by simp) (by simp) (by simp))
    · exact p4 (run_calls_in_plan _ ctxErr cancelCleared _ h (by simp) (by simp) (by simp))
  obtain ⟨d, hdm, hdn, _, hdt⟩ := hd
  have hkey : name ∈ (buildWindows clock cfg.Displays 0 []).map Prod.fst :=
    (h2 name).mpr ⟨d, hdm, hdn⟩
  cases hl : (buildWindows clock cfg.Displays 0 []).lookup name with
  | none =>
    exact absurd hkey ((lookup_none_iff_not_key _ name).mp hl)
  | some ds =>
    refine ⟨ds, rfl, ?_⟩
    obtain ⟨l1, l2, hsplit, _⟩ := List.lookup_eq_some_iff.mp hl
    have hmem : (name, ds) ∈ buildWindows clock cfg.Displays 0 [] := by
      rw [hsplit]
      simp
    obtain ⟨d2, j, hfind, hds⟩ := h3 (name, ds) hmem
    have hd2m : d2 ∈ cfg.Displays := List.mem_of_find?_eq_some hfind
    have hd2n : d2.Name = name := by
      have := List.find?_some hfind
      simpa using this
    have heq : d2 = d :=
      List.inj_on_of_nodup_map hnodup hd2m hdm (hd2n.trans hdn.symm)
    simp only at hds
    rw [hds, heq]
    simp only [newDisplayState, (newTabStates_spec (clock j) d.Tabs 0).2.1]
    cases hdt2 : d.Tabs with
    | nil => exact absurd hdt2 hdt
    | cons t ts => simp

/-- C18 fails on the code: the configuration lists the name `x` twice, first
without tabs, then with one tab.  `loadConfig` stores under `x` the state of
the first display (no tab); `Run` calls `launchChrome` and `tabCycler` for `x`
because the second display has a tab; `launchChrome` panics on `Tabs[0]`, and
a cycler started on that state makes no step and reaches no dwell wait, so it
does not stop on cancellation. -/
theorem launchChrome_on_tabless_state :
    (NewKiosk.loadConfig "" (Except.ok sameNameConfig) (fun _ _ => 100)).toOption.map
      (fun k =>
        (decide (RunCall.launchChrome "x" ∈ k.Run (fun _ => false) false),
          decide (RunCall.tabCycler "x" ∈ k.Run (fun _ => false) false),
          (k.windows.lookup "x").map (fun ds => ds.Tabs.length),
          (launchChrome k "x" (launchEnv [])).isPanicked,
          ((tabCycler k "x").2).map (fun s =>
            ((runCycler s [cancelEnv, cancelEnv]).stopped,
              (runCycler s [cancelEnv, cancelEnv]).trace)))) =
      some (true, true, some 0, true, some (false, [])) := by
  rfl

/-! ## Configuration helpers: claim C19 -/

theorem highestPortFrom_eq_foldl (l : List DisplayConfig) (h : Int) :
    highestPortFrom l h = (l.map DisplayConfig.DebugPort).foldl max h := by
  induction l generalizing h with
  | nil => simp [highestPortFrom]
  | cons d rest ih =>
    unfold highestPortFrom
    by_cases hd : d.DebugPort > h
    · rw [if_pos hd, ih]
      simp only [List.map_cons, List.foldl_cons]
      rw [max_eq_right (le_of_lt hd)]
    · rw [if_neg hd, ih]
      simp only [List.map_cons, List.foldl_cons]
      rw [max_eq_left (not_lt.mp hd)]

theorem highestPortFrom_bounds (l : List DisplayConfig) (h : Int) :
    h ≤ highestPortFrom l h ∧ (∀ d ∈ l, d.DebugPort ≤ highestPortFrom l h) ∧
    (highestPortFrom l h = h ∨ ∃ d ∈ l, highestPortFrom l h = d.DebugPort) := by
  induction l generalizing h with
  | nil => simp [highestPortFrom]
  | cons d rest ih =>
    unfold highestPortFrom
    by_cases hd : d.DebugPort > h
    · rw [if_pos hd]
      obtain ⟨h1, h2, h3⟩ := ih d.DebugPort
      refine ⟨by omega, ?_, ?_⟩
      · intro x hx
        rcases List.mem_cons.mp hx with hx | hx
        · rw [hx]; exact h1
        · exact h2 x hx
      · right
        rcases h3 with h3 | ⟨x, hx, h3⟩
        · exact ⟨d, List.mem_cons_self _ _, h3⟩
        · exact ⟨x, List.mem_cons_of_mem _ hx, h3⟩
    · rw [if_neg hd]
      obtain ⟨h1, h2, h3⟩ := ih h
      refine ⟨h1, ?_, ?_⟩
      · intro x hx
        rcases List.mem_cons.mp hx with hx | hx
        · rw [hx]; omega
        · exact h2 x hx
      · rcases h3 with h3 | ⟨x, hx, h3⟩
        · exact Or.inl h3
        · exact Or.inr ⟨x, List.mem_cons_of_mem _ hx, h3⟩

/-- C19, amended: for every config whose displays have a `DebugPort` below
`2^63 - 1` (the largest `int`), `NextDebugPort` returns one more than the
maximum of 9000 and the `DebugPort` of every display; the result is greater
than 9000 and greater than the `DebugPort` of every configured display. -/
theorem nextDebugPort_spec (c : Config)
    (hbound : ∀ d ∈ c.Displays, d.DebugPort < 9223372036854775807) :
    c.NextDebugPort = (c.Displays.map DisplayConfig.DebugPort).foldl max 9000 + 1 ∧
    9000 < c.NextDebugPort ∧
    ∀ d ∈ c.Displays, d.DebugPort < c.NextDebugPort := by
  obtain ⟨h1, h2, h3⟩ := highestPortFrom_bounds c.Displays 9000
  have hhi : highestPortFrom c.Displays 9000 < 9223372036854775807 := by
    rcases h3 with h3 | ⟨d, hd, h3⟩
    · rw [h3]; decide
    · rw [h3]; exact hbound d hd
  have hw : c.NextDebugPort = highestPortFrom c.Displays 9000 + 1 := by
    unfold Config.NextDebugPort
    exact wrap64_of_range _ (by omega) (by omega)
  refine ⟨?_, ?_, ?_⟩
  · rw [hw, highestPortFrom_eq_foldl]
  · rw [hw]; omega
  · intro d hd
    rw [hw]
    have := h2 d hd
    omega

/-- Instance of C19 (amended): ports 9223, 0 and 0 give 9224. -/
theorem nextDebugPort_spec_witness :
    mixedConfig.NextDebugPort =
      (mixedConfig.Displays.map DisplayConfig.DebugPort).foldl max 9000 + 1 ∧
    9000 < mixedConfig.NextDebugPort ∧
    ∀ d ∈ mixedConfig.Displays, d.DebugPort < mixedConfig.NextDebugPort :=
  nextDebugPort_spec mixedConfig (by decide)

/-- C19 as stated fails: with a display on port `2^63 - 1` the sum wraps and
`NextDebugPort` returns `-2^63`, which is neither above 9000 nor above that
port; with no display it returns 9001. -/
theorem nextDebugPort_wraps :
    (portConfig 9223372036854775807).NextDebugPort = -9223372036854775808 ∧
    ¬ (9000 < (portConfig 9223372036854775807).NextDebugPort) ∧
    ¬ (∀ d ∈ (portConfig 9223372036854775807).Displays,
      d.DebugPort < (portConfig 9223372036854775807).NextDebugPort) ∧
    (namedConfig []).NextDebugPort = 9001 := by
  refine ⟨by decide, by decide, by decide, by decide⟩

/-! ## Window search: claim C15 -/

theorem keepNumeric_eq_filter (l : List String) :
    keepNumeric l = l.filter (fun id => (atoi id.data).isSome) := by
  induction l with
  | nil => simp [keepNumeric]
  | cons id rest ih =>
    unfold keepNumeric
    by_cases he : id = ""
    · rw [if_pos he, ih]
      have : (atoi id.data).isSome = false := by
        rw [he]
        rfl
      simp [List.filter_cons, this]
    · rw [if_neg he]
      cases ha : atoi id.data with
      | none => simp [List.filter_cons, ha, ih]
      | some v => simp [List.filter_cons, ha, ih]

theorem splitLines_ne_nil (s : List Char) : splitLines s ≠ [] := by
  cases s with
  | nil => simp [splitLines]
  | cons c rest =>
    unfold splitLines
    by_cases hc : c.toNat = 10
    · simp [hc]
    · rw [if_neg hc]
      cases hr : splitLines rest <;> simp

/-- The first piece of `splitLines` is empty only for the empty string and
for a string that starts with a line feed. -/
theorem splitLines_head_empty (s : List Char) (h : (splitLines s).head? = some []) :
    s = [] ∨ ∃ c rest, s = c :: rest ∧ c.toNat = 10 := by
  cases s with
  | nil => exact Or.inl rfl
  | cons c rest =>
    right
    refine ⟨c, rest, rfl, ?_⟩
    by_contra hc
    unfold splitLines at h
    rw [if_neg hc] at h
    cases hr : splitLines rest with
    | nil => rw [hr] at h; simp at h
    | cons line lines => rw [hr] at h; simp at h

/-- What `strings.TrimSpace` returns is empty or starts with a character that
is no white space. -/
theorem trimSpace_head (s : List Char) :
    trimSpace s = [] ∨ ∃ c rest, trimSpace s = c :: rest ∧ isSpace c = false := by
  unfold trimSpace
  have hx : ∀ x : List Char, (∀ c rest, x = c :: rest → isSpace c = false) →
      ((x.reverse.dropWhile isSpace).reverse = [] ∨
        ∃ c rest, (x.reverse.dropWhile isSpace).reverse = c :: rest ∧ isSpace c = false) := by
    intro x hhead
    have hpre : ∃ t, x = (x.reverse.dropWhile isSpace).reverse ++ t := by
      refine ⟨(x.reverse.takeWhile isSpace).reverse, ?_⟩
      rw [← List.reverse_append, List.takeWhile_append_dropWhile, List.reverse_reverse]
    obtain ⟨t, ht⟩ := hpre
    cases hy : (x.reverse.dropWhile isSpace).reverse with
    | nil => exact Or.inl rfl
    | cons c rest =>
      right
      refine ⟨c, rest, rfl, ?_⟩
      rw [hy] at ht
      exact hhead c (rest ++ t) (by rw [ht]; rfl)
  apply hx
  intro c rest hc
  have := List.head_dropWhile_not isSpace s (by rw [hc]; simp)
  simp only [hc, List.head_cons] at this
  simpa using this

/-- C15: `xdotoolSearchVisible` never returns an error.  When the tool fails,
or its output is empty once trimmed, the list returned is empty; in every
case where the tool succeeds the list consists of exactly those lines of the
trimmed output that `strconv.Atoi` accepts, in output order. -/
theorem xdotoolSearchVisible_never_errors (searchName : String)
    (run : String → Except String String) :
    (xdotoolSearchVisible searchName run).2 = none ∧
    (∀ e, run (if searchName = "" then ".*" else searchName) = Except.error e →
      (xdotoolSearchVisible searchName run).1 = []) ∧
    (∀ out, run (if searchName = "" then ".*" else searchName) = Except.ok out →
      trimSpace out.data = [] → (xdotoolSearchVisible searchName run).1 = []) ∧
    (∀ out, run (if searchName = "" then ".*" else searchName) = Except.ok out →
      (xdotoolSearchVisible searchName run).1 =
        ((splitLines (trimSpace out.data)).map String.mk).filter
          (fun id => (atoi id.data).isSome)) := by
  have hok : ∀ out, run (if searchName = "" then ".*" else searchName) = Except.ok out →
      (xdotoolSearchVisible searchName run).2 = none ∧
      (xdotoolSearchVisible searchName run).1 =
        ((splitLines (trimSpace out.data)).map String.mk).filter
          (fun id => (atoi id.data).isSome) := by
    intro out hout
    unfold xdotoolSearchVisible
    rw [hout]
    simp only
    by_cases hfirst : ((splitLines (trimSpace out.data)).map String.mk).length = 0 ∨
        ((splitLines (trimSpace out.data)).map String.mk).head? = some ""
    · rw [if_pos hfirst]
      refine ⟨rfl, ?_⟩
      have hempty : trimSpace out.data = [] := by
        rcases hfirst with h0 | h0
        · rw [List.length_map, List.length_eq_zero] at h0
          exact absurd h0 (splitLines_ne_nil _)
        · have hh : (splitLines (trimSpace out.data)).head? = some [] := by
            cases hs : splitLines (trimSpace out.data) with
            | nil => rw [hs] at h0; simp at h0
            | cons line lines =>
              rw [hs] at h0
              simp only [List.map_cons, List.head?_cons, Option.some.injEq] at h0
              have : line = [] := by
                have h1 : (String.mk line).data = ("" : String).data := by rw [h0]
                simpa using h1
              rw [this]
              rfl
          rcases splitLines_head_empty _ hh with h1 | ⟨c, rest, h1, hc⟩
          · exact h1
          · rcases trimSpace_head out.data with h2 | ⟨c2, rest2, h2, hsp⟩
            · exact h2
            · rw [h1] at h2
              simp only [List.cons.injEq] at h2
              rw [← h2.1] at hsp
              have : isSpace c = true := by simp [isSpace, hc]
              rw [this] at hsp
              cases hsp
      rw [hempty]
      rfl
    · rw [if_neg hfirst]
      exact ⟨rfl, keepNumeric_eq_filter _⟩
  refine ⟨?_, ?_, ?_, fun out hout => (hok out hout).2⟩
  · cases hr : run (if searchName = "" then ".*" else searchName) with
    | error e =>
      unfold xdotoolSearchVisible
      rw [hr]
    | ok out => exact (hok out hr).1
  · intro e he
    unfold xdotoolSearchVisible
    rw [he]
  · intro out hout hempty
    rw [(hok out hout).2, hempty]
    rfl

/-- The search on three outcomes of the tool: two window ids around a line
that is no number, an output of blanks only, and a failure. -/
theorem xdotoolSearchVisible_examples :
    xdotoolSearchVisible "chromium" (fun _ => Except.ok "41943042\nfoo\n41943049\n") =
      (["41943042", "41943049"], none) ∧
    xdotoolSearchVisible "" (fun _ => Except.ok " \n") = ([], none) ∧
    xdotoolSearchVisible "" (fun _ => Except.error "exit status 1") = ([], none) := by
  refine ⟨by decide, by decide, by decide⟩

/-! ## Configuration helpers: claim C20 -/

/-- The loop of `IndexOfDisplay` returns -1 exactly when no display of the
list has the name. -/
theorem indexOfDisplayFrom_eq_neg_one (name : String) (l : List DisplayConfig) (i : Int)
    (hi : 0 ≤ i) :
    (indexOfDisplayFrom name l i = -1 ↔ ∀ d ∈ l, d.Name ≠ name) ∧
    (indexOfDisplayFrom name l i = -1 ∨ i ≤ indexOfDisplayFrom name l i) := by
  induction l generalizing i with
  | nil => simp [indexOfDisplayFrom]
  | cons d rest ih =>
    unfold indexOfDisplayFrom
    by_cases hd : d.Name = name
    · rw [if_pos hd]
      refine ⟨?_, Or.inr (le_refl _)⟩
      constructor
      · intro h
        omega
      · intro h
        exact absurd hd (h d (List.mem_cons_self _ _))
    · rw [if_neg hd]
      obtain ⟨h1, h2⟩ := ih (i + 1) (by omega)
      refine ⟨?_, ?_⟩
      · rw [h1]
        constructor
        · intro h x hx
          rcases List.mem_cons.mp hx with hx | hx
          · rw [hx]; exact hd
          · exact h x hx
        · intro h x hx
          exact h x (List.mem_cons_of_mem _ hx)
      · rcases h2 with h2 | h2
        · exact Or.inl h2
        · exact Or.inr (by omega)

theorem digitChar_toNat (j : Nat) (hj : j < 10) :
    (digitChar j).toNat - 48 = j ∧ isDigit (digitChar j) = true := by
  interval_cases j <;> exact ⟨by decide, by decide⟩

theorem digitsValue_append_singleton (l : List Char) (c : Char) :
    digitsValue (l ++ [c]) = 10 * digitsValue l + (c.toNat - 48) := by
  simp [digitsValue, List.foldl_append]

/-- Reading back the digits `%d` prints gives the number printed. -/
theorem digitsValue_formatNatFuel (fuel n : Nat) (h : n < fuel) :
    digitsValue (formatNatFuel fuel n) = n := by
  induction fuel generalizing n with
  | zero => omega
  | succ fuel ih =>
    unfold formatNatFuel
    by_cases hn : n < 10
    · rw [if_pos hn]
      simp only [digitsValue, List.foldl_cons, List.foldl_nil, Nat.mul_zero, Nat.zero_add]
      exact (digitChar_toNat n hn).1
    · rw [if_neg hn, digitsValue_append_singleton, ih (n / 10) (by omega),
        (digitChar_toNat (n % 10) (Nat.mod_lt _ (by decide))).1]
      omega

theorem trailingDigits_spec (s : List Char) :
    (∀ c ∈ trailingDigits s, isDigit c = true) ∧
    s = (s.reverse.dropWhile isDigit).reverse ++ trailingDigits s := by
  unfold trailingDigits
  refine ⟨?_, ?_⟩
  · intro c hc
    rw [List.mem_reverse] at hc
    exact (List.mem_takeWhile_imp hc)
  · rw [← List.reverse_append, List.takeWhile_append_dropWhile, List.reverse_reverse]

theorem trimSuffix_append (pre suffix : List Char) :
    trimSuffix (pre ++ suffix) suffix = pre := by
  unfold trimSuffix
  have hlen : (pre ++ suffix).length - suffix.length = pre.length := by
    rw [List.length_append]
    omega
  rw [hlen]
  simp

/-- The name proposed is never the name of the last display. -/
theorem nextDisplayName_ne_last (c : Config) (d : DisplayConfig)
    (hlast : c.Displays.getLast? = some d) : c.NextDisplayName ≠ d.Name := by
  have hsuffix : d.Name ++ "-1" ≠ d.Name := by
    intro h
    have hl : (d.Name ++ "-1").length = d.Name.length := by rw [h]
    rw [String.length_append] at hl
    have h2 : ("-1" : String).length = 2 := by decide
    omega
  unfold Config.NextDisplayName
  rw [hlast]
  simp only
  by_cases hm : trailingDigits d.Name.data = []
  · rw [if_pos hm]
    exact hsuffix
  · rw [if_neg hm]
    cases ha : atoi (trailingDigits d.Name.data) with
    | none => exact hsuffix
    | some lastNum =>
      simp only
      intro heq
      obtain ⟨hdig, hsplit⟩ := trailingDigits_spec d.Name.data
      have hdata : trimSuffix d.Name.data (trailingDigits d.Name.data) ++
          formatInt (wrap64 (lastNum + 1)) = d.Name.data := congrArg String.data heq
      have htrim : trimSuffix d.Name.data (trailingDigits d.Name.data) =
          (d.Name.data.reverse.dropWhile isDigit).reverse := by
        have happ := trimSuffix_append (d.Name.data.reverse.dropWhile isDigit).reverse
          (trailingDigits d.Name.data)
        rw [← hsplit] at happ
        exact happ
      rw [htrim] at hdata
      have hfmt : formatInt (wrap64 (lastNum + 1)) = trailingDigits d.Name.data := by
        have h3 : (d.Name.data.reverse.dropWhile isDigit).reverse ++
            formatInt (wrap64 (lastNum + 1)) =
            (d.Name.data.reverse.dropWhile isDigit).reverse ++ trailingDigits d.Name.data := by
          rw [hdata]
          exact hsplit
        exact List.append_cancel_left h3
      cases hmc : trailingDigits d.Name.data with
      | nil => exact hm hmc
      | cons ch rest =>
        have hch : isDigit ch = true := hdig ch (by rw [hmc]; exact List.mem_cons_self _ _)
        have hch2 : 48 ≤ ch.toNat := by
          simp only [isDigit, Bool.and_eq_true, decide_eq_true_eq] at hch
          exact hch.1
        have hall : (ch :: rest).all isDigit = true := by
          rw [List.all_eq_true]
          intro x hx
          exact hdig x (by rw [hmc]; exact hx)
        rw [hmc] at ha hfmt
        unfold atoi at ha
        have h45 : ¬ ch.toNat = 45 := by omega
        have h43 : ¬ ch.toNat = 43 := by omega
        simp only [h45, h43, if_false, hall, not_true_eq_false] at ha
        by_cases hr : digitsValue (ch :: rest) ≤ 9223372036854775807
        · rw [if_pos hr] at ha
          simp only [Option.some.injEq] at ha
          by_cases hmax : digitsValue (ch :: rest) = 9223372036854775807
          · have hneg : wrap64 (lastNum + 1) = -9223372036854775808 := by
              rw [← ha, hmax]
              decide
            rw [hneg] at hfmt
            have hf : formatInt (-9223372036854775808) =
                Char.ofNat 45 :: formatNat 9223372036854775808 := by
              rfl
            rw [hf] at hfmt
            simp only [List.cons.injEq] at hfmt
            have : ch.toNat = 45 := by
              rw [← hfmt.1]
              decide
            omega
          · have hw : wrap64 (lastNum + 1) = ((digitsValue (ch :: rest) + 1 : Nat) : Int) := by
              rw [← ha]
              push_cast
              apply wrap64_of_range <;> omega
            rw [hw] at hfmt
            have hf : formatInt ((digitsValue (ch :: rest) + 1 : Nat) : Int) =
                formatNat (digitsValue (ch :: rest) + 1) := by
              unfold formatInt
              rw [if_neg (by omega)]
              simp
            rw [hf] at hfmt
            have hv := digitsValue_formatNatFuel (digitsValue (ch :: rest) + 1 + 1)
              (digitsValue (ch :: rest) + 1) (by omega)
            unfold formatNat at hfmt
            rw [hfmt] at hv
            omega
        · rw [if_neg hr] at ha
          cases ha

/-- C20, amended: for a config without displays `NextDisplayName` returns
`Display0`, which no display carries; for every other config the name
returned differs from the name of the last display; and whenever no display
before the last carries the name returned, no configured display does, that
is `IndexOfDisplay(NextDisplayName()) = -1` (so in particular for every
config with at most one display). -/
theorem nextDisplayName_fresh_against_last (c : Config) :
    (c.Displays = [] →
      c.NextDisplayName = "Display0" ∧ c.IndexOfDisplay c.NextDisplayName = -1) ∧
    (∀ d, c.Displays.getLast? = some d → c.NextDisplayName ≠ d.Name) ∧
    ((∀ d ∈ c.Displays.dropLast, d.Name ≠ c.NextDisplayName) →
      c.IndexOfDisplay c.NextDisplayName = -1) := by
  refine ⟨?_, nextDisplayName_ne_last c, ?_⟩
  · intro h
    unfold Config.IndexOfDisplay Config.NextDisplayName
    rw [h]
    exact ⟨rfl, rfl⟩
  · intro hearlier
    unfold Config.IndexOfDisplay
    rw [(indexOfDisplayFrom_eq_neg_one _ c.Displays 0 (le_refl _)).1]
    intro d hd
    cases hl : c.Displays.getLast? with
    | none =>
      rw [List.getLast?_eq_none_iff] at hl
      rw [hl] at hd
      cases hd
    | some last =>
      have hsplit := List.dropLast_append_getLast? last (by rw [hl]; rfl)
      rw [← hsplit] at hd
      rcases List.mem_append.mp hd with hd | hd
      · exact hearlier d hd
      · simp only [List.mem_singleton] at hd
        rw [hd]
        exact (nextDisplayName_ne_last c last hl).symm

/-- C20 as stated fails: with displays `Display1`, `Display0` (in that order)
the name proposed is `Display1`, the name of the first display; with `A-1`,
`A` it is `A-1`.  `IndexOfDisplay` finds both at index 0. -/
theorem nextDisplayName_collides :
    (namedConfig ["Display1", "Display0"]).NextDisplayName = "Display1" ∧
    (namedConfig ["Display1", "Display0"]).IndexOfDisplay
      (namedConfig ["Display1", "Display0"]).NextDisplayName = 0 ∧
    (namedConfig ["A-1", "A"]).NextDisplayName = "A-1" ∧
    (namedConfig ["A-1", "A"]).IndexOfDisplay (namedConfig ["A-1", "A"]).NextDisplayName = 0 := by
  refine ⟨by decide, by decide, by decide, by decide⟩

/-- The name proposed on some single-display configs. -/
theorem nextDisplayName_examples :
    (namedConfig []).NextDisplayName = "Display0" ∧
    (namedConfig ["Display0"]).NextDisplayName = "Display1" ∧
    (namedConfig ["Lobby"]).NextDisplayName = "Lobby-1" ∧
    (namedConfig ["Wall 009"]).NextDisplayName = "Wall 10" ∧
    (namedConfig ["D9223372036854775807"]).NextDisplayName = "D-9223372036854775808" ∧
    (namedConfig ["D9223372036854775808"]).NextDisplayName = "D9223372036854775808-1" := by
  refine ⟨by decide, by decide, by decide, by decide, by decide, by decide⟩

/-! ## Configuration helpers: claim C21 -/

/-- The loop of `IndexOfDisplay` started at index `i`: either no display of
the list has the name and it returns -1, or it returns `i` plus the position
of the first display that has it. -/
theorem indexOfDisplayFrom_first (name : String) (l : List DisplayConfig) (i : Int) :
    ((∀ d ∈ l, d.Name ≠ name) ∧ indexOfDisplayFrom name l i = -1) ∨
    ∃ (k : Nat) (d : DisplayConfig), l[k]? = some d ∧ d.Name = name ∧
      (∀ (j : Nat) (x : DisplayConfig), j < k → l[j]? = some x → x.Name ≠ name) ∧
      indexOfDisplayFrom name l i = i + (k : Int) := by
  induction l generalizing i with
  | nil =>
    left
    simp [indexOfDisplayFrom]
  | cons d rest ih =>
    unfold indexOfDisplayFrom
    by_cases hd : d.Name = name
    · rw [if_pos hd]
      right
      refine ⟨0, d, by simp, hd, ?_, by simp⟩
      intro j x hj
      omega
    · rw [if_neg hd]
      rcases ih (i + 1) with ⟨hall, hres⟩ | ⟨k, x, hk, hx, hmin, hres⟩
      · left
        refine ⟨?_, hres⟩
        intro y hy
        rcases List.mem_cons.mp hy with hy | hy
        · rw [hy]; exact hd
        · exact hall y hy
      · right
        refine ⟨k + 1, x, by simpa using hk, hx, ?_, ?_⟩
        · intro j y hj hy
          cases j with
          | zero =>
            simp only [List.getElem?_cons_zero, Option.some.injEq] at hy
            rw [← hy]
            exact hd
          | succ j =>
            simp only [List.getElem?_cons_succ] at hy
            exact hmin j y (by omega) hy
        · rw [hres]
          push_cast
          omega

/-- C21: for every config and every name, `IndexOfDisplay` returns -1 if and
only if no display has the name; otherwise it returns the smallest index `i`
such that `Displays[i].Name` equals the name; a result that is not negative
is a valid index into `Displays`. -/
theorem indexOfDisplay_spec (c : Config) (name : String) :
    (c.IndexOfDisplay name = -1 ↔ ∀ d ∈ c.Displays, d.Name ≠ name) ∧
    ((∃ d ∈ c.Displays, d.Name = name) →
      ∃ (i : Nat) (d : DisplayConfig), c.IndexOfDisplay name = (i : Int) ∧
        c.Displays[i]? = some d ∧ d.Name = name ∧
        ∀ (j : Nat) (x : DisplayConfig), j < i → c.Displays[j]? = some x → x.Name ≠ name) ∧
    (0 ≤ c.IndexOfDisplay name →
      ∃ i : Nat, c.IndexOfDisplay name = (i : Int) ∧ i < c.Displays.length) := by
  unfold Config.IndexOfDisplay
  rcases indexOfDisplayFrom_first name c.Displays 0 with
    ⟨hall, hres⟩ | ⟨k, d, hk, hd, hmin, hres⟩
  · refine ⟨?_, ?_, ?_⟩
    · rw [hres]
      exact ⟨fun _ => hall, fun _ => rfl⟩
    · rintro ⟨x, hx, hxn⟩
      exact absurd hxn (hall x hx)
    · intro h0
      rw [hres] at h0
      omega
  · have hklt : k < c.Displays.length := by
      rcases Nat.lt_or_ge k c.Displays.length with h1 | h1
      · exact h1
      · rw [List.getElem?_eq_none h1] at hk
        cases hk
    have hres2 : indexOfDisplayFrom name c.Displays 0 = (k : Int) := by
      rw [hres]
      omega
    refine ⟨?_, ?_, ?_⟩
    · rw [hres2]
      constructor
      · intro h
        omega
      · intro hall
        exact absurd hd (hall d (List.mem_iff_getElem?.mpr ⟨k, hk⟩))
    · intro _
      exact ⟨k, d, hres2, hk, hd, hmin⟩
    · intro _
      exact ⟨k, hres2, hklt⟩

/-- The index on a config that lists the name `b` twice, and for a name that
no display has. -/
theorem indexOfDisplay_examples :
    (namedConfig ["a", "b", "c", "b"]).IndexOfDisplay "b" = 1 ∧
    (namedConfig ["a", "b", "c", "b"]).IndexOfDisplay "a" = 0 ∧
    (namedConfig ["a", "b", "c", "b"]).IndexOfDisplay "z" = -1 ∧
    (namedConfig []).IndexOfDisplay "a" = -1 := by
  refine ⟨by decide, by decide, by decide, by decide⟩

/-! ## Run sequence: claim C12 on a repeated display name -/

/-- With pairwise different display names `Run` applies one behaviour per
display.  A display with a non-empty `Exec.Command` never gets a
`launchChrome` or `tabCycler` call; one with an empty `Exec.Command` never
gets a `launchCustom` or `execCycle` call, and without tabs none of the four;
in a run that is not cut short the display with a command gets `launchCustom`
and `execCycle`, the display with tabs and no command `launchChrome` and
`tabCycler`. -/
theorem run_one_behaviour_of_unique_names (k : Kiosk) (ctxErr : Nat → Bool)
    (cancelCleared : Bool) (hnodup : (k.cfg.Displays.map DisplayConfig.Name).Nodup) :
    ∀ d ∈ k.cfg.Displays,
      (d.Exec.Command ≠ "" →
        RunCall.launchChrome d.Name ∉ k.Run ctxErr cancelCleared ∧
        RunCall.tabCycler d.Name ∉ k.Run ctxErr cancelCleared) ∧
      (d.Exec.Command = "" →
        RunCall.launchCustom d.Name ∉ k.Run ctxErr cancelCleared ∧
        RunCall.execCycle d.Name ∉ k.Run ctxErr cancelCleared) ∧
      (d.Exec.Command = "" → d.Tabs = [] →
        RunCall.launchChrome d.Name ∉ k.Run ctxErr cancelCleared ∧
        RunCall.tabCycler d.Name ∉ k.Run ctxErr cancelCleared) ∧
      ((∀ n, ctxErr n = false) →
        (d.Exec.Command ≠ "" →
          RunCall.launchCustom d.Name ∈ k.Run ctxErr cancelCleared ∧
          RunCall.execCycle d.Name ∈ k.Run ctxErr cancelCleared) ∧
        (d.Exec.Command = "" → d.Tabs ≠ [] →
          RunCall.launchChrome d.Name ∈ k.Run ctxErr cancelCleared ∧
          RunCall.tabCycler d.Name ∈ k.Run ctxErr cancelCleared)) := by
  intro d hd
  obtain ⟨p1, p2, p3, p4⟩ := runPlan_dispatch k.cfg d.Name
  have same : ∀ d2 ∈ k.cfg.Displays, d2.Name = d.Name → d2 = d := fun d2 hd2 hn =>
    List.inj_on_of_nodup_map hnodup hd2 hd hn
  have inPlan : ∀ c : RunCall, c ∈ k.Run ctxErr cancelCleared → c ≠ RunCall.wait →
      c ≠ RunCall.cancel → (∀ n, c ≠ RunCall.closeWindow n) →
      c ∈ (runPlan k.cfg).map Prod.fst :=
    fun c hc hw hcn hcl => run_calls_in_plan k ctxErr cancelCleared c hc hw hcn hcl
  refine ⟨?_, ?_, ?_, ?_⟩
  · intro hcmd
    constructor
    · intro h
      obtain ⟨d2, hd2, hn, he, _⟩ := p3 (inPlan _ h (by simp) (by simp) (by simp))
      rw [same d2 hd2 hn] at he
      exact hcmd he
    · intro h
      obtain ⟨d2, hd2, hn, he, _⟩ := p4 (inPlan _ h (by simp) (by simp) (by simp))
      rw [same d2 hd2 hn] at he
      exact hcmd he
  · intro hcmd
    constructor
    · intro h
      obtain ⟨d2, hd2, hn, he⟩ := p1 (inPlan _ h (by simp) (by simp) (by simp))
      rw [same d2 hd2 hn] at he
      exact he hcmd
    · intro h
      obtain ⟨d2, hd2, hn, he⟩ := p2 (inPlan _ h (by simp) (by simp) (by simp))
      rw [same d2 hd2 hn] at he
      exact he hcmd
  · intro _ htabs
    constructor
    · intro h
      obtain ⟨d2, hd2, hn, _, ht⟩ := p3 (inPlan _ h (by simp) (by simp) (by simp))
      rw [same d2 hd2 hn] at ht
      exact ht htabs
    · intro h
      obtain ⟨d2, hd2, hn, _, ht⟩ := p4 (inPlan _ h (by simp) (by simp) (by simp))
      rw [same d2 hd2 hn] at ht
      exact ht htabs
  · intro hno
    have hrun : ∀ c : RunCall, c ∈ (runPlan k.cfg).map Prod.fst →
        c ∈ k.Run ctxErr cancelCleared := by
      intro c hc
      unfold Kiosk.Run
      rw [runCalls_never_cancelled ctxErr hno]
      exact List.mem_append_left _ (List.mem_append_left _ hc)
    have hlaunch : ∀ p ∈ launchStep d, p.1 ∈ (runPlan k.cfg).map Prod.fst := by
      intro p hp
      refine List.mem_map.mpr ⟨p, ?_, rfl⟩
      unfold runPlan
      exact List.mem_append_left _ (List.mem_append_left _ (List.mem_append_left _
        (List.mem_flatMap.mpr ⟨d, hd, hp⟩)))
    have hcycle : ∀ p ∈ cycleStep d, p.1 ∈ (runPlan k.cfg).map Prod.fst := by
      intro p hp
      refine List.mem_map.mpr ⟨p, ?_, rfl⟩
      unfold runPlan
      exact List.mem_append_right _ (List.mem_flatMap.mpr ⟨d, hd, hp⟩)
    constructor
    · intro hcmd
      exact ⟨hrun _ (hlaunch (RunCall.launchCustom d.Name, true) (by simp [launchStep, hcmd])),
        hrun _ (hcycle (RunCall.execCycle d.Name, false) (by simp [cycleStep, hcmd]))⟩
    · intro hcmd htabs
      have hl : ¬ d.Tabs.length = 0 := fun h0 => htabs (List.length_eq_zero.mp h0)
      exact ⟨hrun _ (hlaunch (RunCall.launchChrome d.Name, true) (by simp [launchStep, hcmd, hl])),
        hrun _ (hcycle (RunCall.tabCycler d.Name, true) (by simp [cycleStep, hcmd, hl]))⟩

/-- The lemma on `mixedConfig`, whose three displays have different names, in
a run cut short or not. -/
theorem run_one_behaviour_mixed (ctxErr : Nat → Bool) (cancelCleared : Bool) :
    RunCall.launchChrome "cam" ∉
        ({ NewKiosk with cfg := mixedConfig } : Kiosk).Run ctxErr cancelCleared ∧
      RunCall.tabCycler "cam" ∉
        ({ NewKiosk with cfg := mixedConfig } : Kiosk).Run ctxErr cancelCleared :=
  (run_one_behaviour_of_unique_names { NewKiosk with cfg := mixedConfig } ctxErr cancelCleared
    (by decide) (mixedConfig.Displays.get ⟨1, by decide⟩) (by decide)).1 (by decide)

/-- C12 fails on the code: the configuration lists the name `x` twice, first
with the command `vlc` and a tab, then with a tab and no command.
`loadConfig` stores one state under `x`, that of the first display, whose
`Exec.Command` is `vlc`.  `Run` goes through both entries and calls
`launchCustom`, `launchChrome`, `execCycle` and `tabCycler` for `x`: the
display with the command is also launched through the browser (which is
started on its own port and its own first tab) and also gets a tab cycler. -/
theorem run_both_behaviours_on_same_name :
    (NewKiosk.loadConfig "" (Except.ok sameNameExecConfig) (fun _ _ => 100)).toOption.map
      (fun k =>
        (k.Run (fun _ => false) false,
          k.windows.map (fun p => (p.1, p.2.Config.Exec.Command, p.2.Tabs.map (fun t => t.cfg.URL))),
          (launchChrome k "x" (launchEnv [])).events,
          ((tabCycler k "x").2).map (fun s =>
            (s.display.Config.Exec.Command, s.display.Tabs.length)))) =
      some ([RunCall.launchCustom "x", RunCall.launchChrome "x",
              RunCall.moveWindow "x", RunCall.moveWindow "x",
              RunCall.execCycle "x", RunCall.tabCycler "x",
              RunCall.wait, RunCall.cancel,
              RunCall.closeWindow "x", RunCall.closeWindow "x"],
            [("x", "vlc", ["http://a"])],
            [LaunchEvent.portProbe 9223, LaunchEvent.startBrowser 9223 "http://a",
              LaunchEvent.waitForDebugger 9223, LaunchEvent.waitForTabID 9223 0],
            some ("vlc", 1)) := by
  rfl

end KioskApp
